import Mathlib

/-!
Verification development for the Cayman-gateway / Mindbody integration service.

The definitions below are a shallow embedding of the TypeScript sources:
  * `src/lib/sessions.ts` (session store: `save`, `get`, `update`),
  * `src/lib/crypto.ts` (`hmacVerify`, over a Lean model of HMAC-SHA-256 and
    Node's `Buffer.from(_, "hex")` decoding),
  * `src/routes/webhooks.ts` (the notification normalizer and the fulfillment
    orchestrator `processCaymanNotification`, plus the HTTP handler
    `handleCaymanNotification`),
  * `src/controllers/legacyCaymanWebhookController.ts` (the legacy signed
    webhook endpoint),
  * the checkout-session constructors of `createCheckoutSessionHandler` and
    `createStaffPayHandler`.

JavaScript dynamic values are modelled by the inductive `JVal`; JS objects by
association lists (`Rec`).  Monetary amounts (JS numbers used as decimals) are
modelled by `ℚ`, with `toFixed(2)`/`parseFloat` rounding modelled by `round2`.
External collaborators (`JSON.parse`, the Mindbody client, the gateway) are
modelled as explicit oracles in a `World` record, so that every function here
is a pure, executable Lean function.  Asynchronous execution is modelled by a
small-step machine (`stepOnce`) whose atomic steps are exactly the synchronous
segments of `processCaymanNotification` between its `await` points; the
sequential semantics `processCaymanNotification` is the machine run to
completion, and interleaved execution of two notifications is the machine run
under an arbitrary boolean schedule (`exec2`).
-/

/-- Model of a JavaScript/JSON dynamic value. -/
inductive JVal where
  | str (s : String)
  | num (q : ℚ)
  | jbool (b : Bool)
  | jnull
  | arr (xs : List JVal)
  | obj (fields : List (String × JVal))
deriving Repr

/-- JS objects are modelled as association lists; property lookup finds the
first binding, and object spread prepends the overriding record. -/
abbrev Rec := List (String × JVal)

/-- Property access `r[k]`: `none` models JS `undefined`. -/
def jget (r : Rec) (k : String) : Option JVal :=
  (r.find? (fun p => p.1 = k)).map (fun p => p.2)

/-- Property access that also skips JS `null`, modelling `r[k] ?? _`
(the `??` operator treats both `undefined` and `null` as absent). -/
def jgetNN (r : Rec) (k : String) : Option JVal :=
  match jget r k with
  | some JVal.jnull => none
  | v => v

/-- Object spread `{...a, ...b}`: bindings of `b` override bindings of `a`. -/
def mergeRecs (a b : Rec) : Rec := b ++ a

/-- JS property assignment `r[k] = v` (used when building records in loops). -/
def setKey (r : Rec) (k : String) (v : JVal) : Rec :=
  (k, v) :: r.filter (fun p => p.1 ≠ k)

/-- JS falsiness of a `JVal` (`undefined` is handled by `Option`). -/
def jvFalsy : JVal → Bool
  | JVal.str s => s = ""
  | JVal.num q => q = 0
  | JVal.jbool b => !b
  | JVal.jnull => true
  | _ => false

/-- Model of JS `String(v)` for the value shapes that reach it in this code
(strings and decimal numbers; other shapes do not occur at those call sites). -/
def jvToStr : JVal → String
  | JVal.str s => s
  | JVal.num q => toString q
  | JVal.jbool b => toString b
  | JVal.jnull => "null"
  | _ => "[object]"

/-- Characters considered whitespace by JS `String.prototype.trim` (restricted
to the ASCII whitespace that occurs in these payloads). -/
def isJsWhitespace (c : Char) : Bool :=
  c = ' ' || c = '\t' || c = '\n' || c = '\r' || c.toNat = 11 || c.toNat = 12

/-- JS `s.trim()`. -/
def jsTrim (s : String) : String :=
  String.mk (((s.data.dropWhile isJsWhitespace).reverse.dropWhile isJsWhitespace).reverse)

/-- JS `s.toLowerCase()` (ASCII range, which is all these payload fields use). -/
def jsToLower (s : String) : String :=
  String.mk (s.data.map (fun c =>
    if 'A' ≤ c && c ≤ 'Z' then Char.ofNat (c.toNat + 32) else c))

/-- Model of JS `Number(s)` on the decimal fragment: optional sign, digits,
optional fractional part; empty/blank strings parse as `0` (as in JS).
Exponents and hex literals are not modelled (they do not occur in the ids this
code converts). Returns `none` for `NaN`. -/
def jsDigits (cs : List Char) : Option ℕ :=
  cs.foldl (fun acc c =>
    match acc with
    | none => none
    | some n => if c.isDigit then some (n * 10 + (c.toNat - 48)) else none) (some 0)

def jsNumberCore (cs : List Char) : Option ℚ :=
  match cs with
  | [] => some 0
  | _ =>
    let (sgn, rest) :=
      match cs with
      | '-' :: r => ((-1 : ℚ), r)
      | '+' :: r => ((1 : ℚ), r)
      | r => ((1 : ℚ), r)
    let intPart := rest.takeWhile (fun c => c ≠ '.')
    let fracPart := (rest.dropWhile (fun c => c ≠ '.')).drop 1
    if rest.isEmpty then none
    else if (rest.contains '.') && fracPart.isEmpty && intPart.isEmpty then none
    else
      match jsDigits intPart, jsDigits fracPart with
      | some i, some f =>
        let den : ℚ := (10 : ℚ) ^ fracPart.length
        some (sgn * ((i : ℚ) + (f : ℚ) / den))
      | _, _ => none

def jsNumber (s : String) : Option ℚ := jsNumberCore (jsTrim s).data

/-- Session status, from `src/lib/sessions.ts`. -/
inductive SessionStatus where
  | created
  | processing
  | paid
  | failed
deriving DecidableEq, Repr

/-- Customer data attached to a session (`SessionCustomer`). -/
structure SessionCustomer where
  email : String
  firstName : String
  lastName : String
deriving DecidableEq, Repr

/-- One line of a checkout session (`SessionLine`); `lineType` is the source's
optional `type` field. -/
structure SessionLine where
  productId : String
  name : String
  unitPrice : ℚ
  qty : ℚ
  lineType : Option String := none
deriving DecidableEq, Repr

/-- Gateway metadata sub-object (`SessionCaymanMetadata`).  A JS object with
all fields `undefined` and an absent object read identically through `?.`, so
the optional object is modelled as a record of `Option` fields with `empty`
standing for both `undefined` and `{}`. -/
structure SessionCaymanMetadata where
  orderId : Option String := none
  transactionId : Option String := none
  auth : Option String := none
  last4 : Option String := none
deriving DecidableEq, Repr

/-- A checkout session (`Session` in `src/lib/sessions.ts`). -/
structure Session where
  id : String
  siteKey : String
  customer : Option SessionCustomer := none
  lines : List SessionLine
  total : ℚ
  status : SessionStatus
  cayman : SessionCaymanMetadata := {}
  clientId : Option String := none
  inStore : Option Bool := none
deriving DecidableEq, Repr

/-- A `Partial<Session>` patch: `none` models an absent key. -/
structure SessionPatch where
  id : Option String := none
  siteKey : Option String := none
  customer : Option SessionCustomer := none
  lines : Option (List SessionLine) := none
  total : Option ℚ := none
  status : Option SessionStatus := none
  cayman : SessionCaymanMetadata := {}
  clientId : Option String := none
  inStore : Option Bool := none
deriving DecidableEq, Repr

/-- The in-memory session map, keyed by session id. -/
abbrev Store := List (String × Session)

namespace Sessions

/-- `get(id)` from `src/lib/sessions.ts`. -/
def get (st : Store) (id : String) : Option Session :=
  (st.find? (fun p => p.1 = id)).map (fun p => p.2)

/-- `Map.set` semantics: replace the binding in place, else append. -/
def setEntry : Store → String → Session → Store
  | [], id, s => [(id, s)]
  | (k, v) :: rest, id, s =>
    if k = id then (k, s) :: rest else (k, v) :: setEntry rest id s

/-- `save(session)` from `src/lib/sessions.ts`. -/
def save (st : Store) (s : Session) : Store := setEntry st s.id s

/-- The merged session built by `update`: shallow merge at the top level and a
nested merge for the `cayman` sub-object. -/
def mergeSession (existing : Session) (patch : SessionPatch) : Session :=
  { id := patch.id.getD existing.id
    siteKey := patch.siteKey.getD existing.siteKey
    customer := patch.customer <|> existing.customer
    lines := patch.lines.getD existing.lines
    total := patch.total.getD existing.total
    status := patch.status.getD existing.status
    cayman :=
      { orderId := patch.cayman.orderId <|> existing.cayman.orderId
        transactionId := patch.cayman.transactionId <|> existing.cayman.transactionId
        auth := patch.cayman.auth <|> existing.cayman.auth
        last4 := patch.cayman.last4 <|> existing.cayman.last4 }
    clientId := patch.clientId <|> existing.clientId
    inStore := patch.inStore <|> existing.inStore }

/-- `update(id, patch)` from `src/lib/sessions.ts`: returns the updated session
together with the new store; `none` and the unchanged store when `id` is
absent. -/
def update (st : Store) (id : String) (patch : SessionPatch) :
    Option Session × Store :=
  match get st id with
  | none => (none, st)
  | some existing =>
    let updated := mergeSession existing patch
    (some updated, setEntry st id updated)

end Sessions

/-! Embedding of the notification normalizer of `src/routes/webhooks.ts`. -/

/-- `toRecord(value)`: a value is usable as a record only when it is a non-null
object (JS arrays never carry the named fields this code reads, so they model
to the empty record). -/
def toRecord : Option JVal → Rec
  | some (JVal.obj fields) => fields
  | _ => []

/-- `extractRawQuery(url)`: the substring after the first `?`, if non-empty. -/
def extractRawQuery (url : Option String) : Option String :=
  match url with
  | none => none
  | some u =>
    match u.data.dropWhile (fun c => c ≠ '?') with
    | [] => none
    | _ :: [] => none
    | _ :: rest => some (String.mk rest)

mutual

/-- `extractFirstString(value)`: a trimmed non-empty string, or the first such
inside a (nested) array. -/
def extractFirstString : JVal → Option String
  | JVal.str s =>
    let t := jsTrim s
    if t.length > 0 then some t else none
  | JVal.arr xs => extractFirstStringList xs
  | _ => none

def extractFirstStringList : List JVal → Option String
  | [] => none
  | x :: rest =>
    match extractFirstString x with
    | some s => some s
    | none => extractFirstStringList rest

end

/-- `normalizeSessionId(value)`: first string, truncated at the first `?`, `#`
or `&` (the two regex replaces), non-empty. -/
def normalizeSessionId (value : Option JVal) : Option String :=
  match value.bind extractFirstString with
  | none => none
  | some raw =>
    let cleaned := String.mk (raw.data.takeWhile (fun c => c ≠ '?' && c ≠ '#' && c ≠ '&'))
    if cleaned.length > 0 then some cleaned else none

/-- `parseCustomSessionId(value)`, with `JSON.parse` supplied as the oracle
`jsonParse` (a Node library function: any string may parse to any value or
fail). A string value is parsed and its object's `sessionId` returned trimmed
(possibly empty, as in the source); an object value's `sessionId` must be
non-empty after trimming. -/
def parseCustomSessionId (jsonParse : String → Option JVal) :
    Option JVal → Option String
  | none => none
  | some v =>
    if jvFalsy v then none
    else
      let strBranch : Option String :=
        match v with
        | JVal.str s =>
          if (jsTrim s).length > 0 then
            match jsonParse s with
            | some (JVal.obj fields) =>
              match jget fields "sessionId" with
              | some (JVal.str sid) => some (jsTrim sid)
              | _ => none
            | _ => none
          else none
        | _ => none
      match strBranch with
      | some sid => some sid
      | none =>
        match v with
        | JVal.obj fields =>
          match jget fields "sessionId" with
          | some (JVal.str sid) =>
            let t := jsTrim sid
            if t.length > 0 then some t else none
          | _ => none
        | _ => none

/-- The known success result codes (`successCodes` in the source). -/
def successCodes : List String := ["00", "0", "000", "100"]

/-- Result of `determineSuccess`. -/
structure SuccessInfo where
  isSuccess : Bool
  resultCode : Option String := none
  resultText : Option String := none
deriving DecidableEq, Repr

/-- The raw `result-code`/`resultCode` signal (`typeof === "string"` checks). -/
def resultCodeRawOf (payload : Rec) : Option String :=
  match jget payload "result-code" with
  | some (JVal.str s) => some s
  | _ =>
    match jget payload "resultCode" with
    | some (JVal.str s) => some s
    | _ => none

/-- The raw `result`/`status` textual signal. -/
def resultRawOf (payload : Rec) : Option String :=
  match jget payload "result" with
  | some (JVal.str s) => some s
  | _ =>
    match jget payload "status" with
    | some (JVal.str s) => some s
    | _ => none

/-- The explicit boolean `success`/`paid` flag. -/
def successFlagOf (payload : Rec) : Option Bool :=
  match jget payload "success" with
  | some (JVal.jbool b) => some b
  | _ =>
    match jget payload "paid" with
    | some (JVal.jbool b) => some b
    | _ => none

/-- `normalizedCode`: the raw result code trimmed. -/
def normalizedCodeOf (payload : Rec) : Option String := (resultCodeRawOf payload).map jsTrim

/-- `loweredResult`: the raw textual result lower-cased and trimmed. -/
def loweredResultOf (payload : Rec) : Option String :=
  (resultRawOf payload).map (fun s => jsTrim (jsToLower s))

/-- `hasTransactionId`: a string `transaction-id` or `transactionId` field. -/
def hasTransactionIdOf (payload : Rec) : Bool :=
  (match jget payload "transaction-id" with
   | some (JVal.str _) => true
   | _ => false) ||
  (match jget payload "transactionId" with
   | some (JVal.str _) => true
   | _ => false)

/-- The textual results accepted as success. -/
def successTexts : List String := ["1", "succeeded", "success", "approved"]

/-- `determineSuccess(payload)` from `src/routes/webhooks.ts`: the `isSuccess`
disjunction is, in source order, a known success code, a known success text,
an explicitly true flag, or the lenient fallback (`hasTransactionId &&
successFlag !== false && (!normalizedCode || successCodes.has(normalizedCode))`,
where `!normalizedCode` is true for an absent or empty-after-trim code). -/
def determineSuccess (payload : Rec) : SuccessInfo :=
  let normalizedCode := normalizedCodeOf payload
  let loweredResult := loweredResultOf payload
  let successFlag := successFlagOf payload
  let isSuccess :=
    (match normalizedCode with
     | some c => successCodes.contains c
     | none => false) ||
    (match loweredResult with
     | some r => successTexts.contains r
     | none => false) ||
    (successFlag = some true) ||
    (hasTransactionIdOf payload && successFlag ≠ some false &&
      (match normalizedCode with
       | none => true
       | some c => c = "" || successCodes.contains c))
  { isSuccess := isSuccess, resultCode := normalizedCode, resultText := loweredResult }

/-- `extractTransactionId(payload)`: the transaction id under its naming
variants, in source order. -/
def extractTransactionId (payload : Rec) : Option String :=
  (jget payload "transaction-id").bind extractFirstString <|>
  (jget payload "transactionId").bind extractFirstString <|>
  (jget payload "transactionid").bind extractFirstString <|>
  ((jgetNN payload "txn_id" <|> jgetNN payload "txn-id" <|> jgetNN payload "txnid").bind
    extractFirstString) <|>
  ((jgetNN payload "result-txn-id" <|> jgetNN payload "resultTxnId" <|>
    jgetNN payload "reference").bind extractFirstString)

/-- `extractAuthCode(payload)`. -/
def extractAuthCode (payload : Rec) : Option String :=
  (jget payload "authorization-code").bind extractFirstString <|>
  (jget payload "authorizationCode").bind extractFirstString <|>
  (jget payload "auth").bind extractFirstString

/-- `extractMaskedPan(payload)`. -/
def extractMaskedPan (payload : Rec) : Option String :=
  (jget payload "maskedPAN").bind extractFirstString <|>
  (jget payload "masked-pan").bind extractFirstString

/-- Characters kept by `sanitizeReference`'s regex `[^A-Za-z0-9_-]`. -/
def refChar (c : Char) : Bool :=
  c.isAlpha || c.isDigit || c = '_' || c = '-'

/-- `sanitizeReference(value)`: trim, strip characters outside
`[A-Za-z0-9_-]`, require non-empty, limit to 30 characters. -/
def sanitizeReference (value : Option String) : Option String :=
  match value with
  | none => none
  | some v =>
    let trimmed := jsTrim v
    if trimmed = "" then none
    else
      let normalized := trimmed.data.filter refChar
      if normalized = [] then none
      else some (String.mk (normalized.take 30))

/-- Percent-decoding as applied by `URLSearchParams` (ASCII fragment: `+`
becomes a space, `%XY` with hex digits becomes the byte's character, anything
else is literal). -/
def isHexDigitChar (c : Char) : Bool :=
  c.isDigit || ('a' ≤ c && c ≤ 'f') || ('A' ≤ c && c ≤ 'F')

def hexVal (c : Char) : ℕ :=
  if c.isDigit then c.toNat - 48
  else if 'a' ≤ c && c ≤ 'f' then c.toNat - 87
  else c.toNat - 55

def urlDecodeList : List Char → List Char
  | [] => []
  | '%' :: a :: b :: rest =>
    if isHexDigitChar a && isHexDigitChar b then
      Char.ofNat (hexVal a * 16 + hexVal b) :: urlDecodeList rest
    else '%' :: urlDecodeList (a :: b :: rest)
  | '+' :: rest => ' ' :: urlDecodeList rest
  | c :: rest => c :: urlDecodeList rest

def urlDecode (s : String) : String := String.mk (urlDecodeList s.data)

/-- One `key=value` segment of a query string, as split by `URLSearchParams`. -/
def parseQuerySegment (seg : List Char) : Option (String × String) :=
  match seg with
  | [] => none
  | _ =>
    let key := seg.takeWhile (fun c => c ≠ '=')
    let value := (seg.dropWhile (fun c => c ≠ '=')).drop 1
    some (urlDecode (String.mk key), urlDecode (String.mk value))

/-- Split a list on a separator character. -/
def splitOnChar (sep : Char) : List Char → List (List Char)
  | [] => [[]]
  | c :: rest =>
    if c = sep then [] :: splitOnChar sep rest
    else
      match splitOnChar sep rest with
      | [] => [[c]]
      | seg :: more => (c :: seg) :: more

/-- `parseRawQuery(raw)` from `src/routes/webhooks.ts`: strip one leading `?`
or `#`, turn stray `?` into `&`, run the pairs through `URLSearchParams`, and
keep entries with a non-empty value (later duplicates overwrite). -/
def parseRawQuery (raw : Option String) : Rec :=
  match raw with
  | none => []
  | some r =>
    if jsTrim r = "" then []
    else
      let stripped :=
        match r.data with
        | '?' :: rest => rest
        | '#' :: rest => rest
        | cs => cs
      let cleaned := stripped.map (fun c => if c = '?' then '&' else c)
      (splitOnChar '&' cleaned).foldl
        (fun acc seg =>
          match parseQuerySegment seg with
          | none => acc
          | some (k, v) => if v ≠ "" then setKey acc k (JVal.str v) else acc)
        []

/-! Embedding of the fulfillment orchestrator `processCaymanNotification`. -/

/-- A cart item sent to `checkoutShoppingCart` (`Items` entry). -/
structure CartItem where
  itemType : String
  itemId : JVal
  quantity : ℚ
  price : ℚ
  description : String
deriving Repr

/-- The argument of the downstream sale call `checkoutShoppingCart`. -/
structure CartReq where
  clientIdVal : JVal
  items : List CartItem
  total : ℚ
  notes : String
  inStore : Bool
  paymentReference : Option String
  externalReferenceId : Option String
deriving Repr

/-- A downstream call issued during fulfillment. -/
inductive DownCall where
  | client (email firstName lastName : String)
  | sale (req : CartReq)
deriving Repr

/-- The sale-checkout calls among a call log. -/
def saleCalls (calls : List DownCall) : List CartReq :=
  calls.filterMap (fun c =>
    match c with
    | DownCall.sale req => some req
    | _ => none)

/-- External collaborators, modelled as pure oracles: `JSON.parse`,
`getOrCreateClient` (which may throw, resolve to nothing, or return a client
record), and `checkoutShoppingCart` (which may throw or return a receipt
record). Errors carry the JS error message. -/
structure World where
  jsonParse : String → Option JVal
  getOrCreateClient : String → String → String → Except String (Option Rec)
  checkoutShoppingCart : CartReq → Except String Rec

/-- `CaymanNotificationPayload`: the orchestrator's input. -/
structure NotifInput where
  source : Option String := none
  query : Option JVal := none
  body : Option JVal := none
  rawQuery : Option String := none
deriving Repr

/-- The `status` values of `CaymanNotificationResult`. -/
inductive RStatus where
  | ignored
  | missingSession
  | noSession
  | failed
  | paid
  | alreadyPaid
  | processing
deriving DecidableEq, Repr

/-- `CaymanNotificationResult` (the axios-specific `mindbody` error sub-object
is not modelled; error details are carried in `detail`). -/
structure CResult where
  status : RStatus
  sessionId : Option String := none
  detail : Option String := none
  receiptId : Option JVal := none
deriving Repr

/-- Helper building a `CResult` from status, session id and detail. -/
def mkRes (status : RStatus) (sessionId detail : Option String) : CResult :=
  { status := status, sessionId := sessionId, detail := detail }

/-- The merged payload `{...rawQueryPayload, ...queryPayload, ...bodyPayload}`. -/
def mergedPayload (inp : NotifInput) : Rec :=
  mergeRecs (mergeRecs (parseRawQuery inp.rawQuery) (toRecord inp.query)) (toRecord inp.body)

/-- The session-id resolution chain of `processCaymanNotification` (top-level
fields of each source, then of the merged payload, then the JSON-encoded
`customfield` sub-objects). -/
def resolveSessionId (jsonParse : String → Option JVal) (inp : NotifInput) :
    Option String :=
  let rawQueryPayload := parseRawQuery inp.rawQuery
  let queryPayload := toRecord inp.query
  let bodyPayload := toRecord inp.body
  let payload := mergedPayload inp
  normalizeSessionId (jget rawQueryPayload "sessionId") <|>
  normalizeSessionId (jget queryPayload "sessionId") <|>
  normalizeSessionId (jget bodyPayload "sessionId") <|>
  normalizeSessionId (jget payload "sessionId") <|>
  normalizeSessionId ((parseCustomSessionId jsonParse (jget payload "customfield-data")).map JVal.str) <|>
  normalizeSessionId ((parseCustomSessionId jsonParse (jget payload "customfield")).map JVal.str)

/-- `resolveMindbodyItemType(lineType)`. -/
def resolveMindbodyItemType (lineType : Option String) : String :=
  match lineType with
  | some t =>
    let normalized := jsToLower (jsTrim t)
    if normalized = "product" then "Product"
    else if normalized = "package" || normalized = "pricingoption" then "PricingOption"
    else if normalized = "service" then "Service"
    else "Service"
  | none => "Service"

/-- The `Item.Id` conversion `Number.isFinite(Number(line.productId)) ?
Number(line.productId) : line.productId`. -/
def cartItemId (productId : String) : JVal :=
  match jsNumber productId with
  | some q => JVal.num q
  | none => JVal.str productId

/-- The cart items built from the locked session's lines. -/
def cartItems (lines : List SessionLine) : List CartItem :=
  lines.map (fun l =>
    { itemType := resolveMindbodyItemType l.lineType
      itemId := cartItemId l.productId
      quantity := l.qty
      price := l.unitPrice
      description := l.name })

/-- The `notesParts` list joined with pipes. -/
def buildNotes (sanitizedTxnId authCode last4 resultCode resultText orderId :
    Option String) : String :=
  let parts := ["Gateway=Cayman"] ++
    (match sanitizedTxnId with | some t => ["TxnId=" ++ t] | none => []) ++
    (match authCode with | some a => ["Auth=" ++ a] | none => []) ++
    (match last4 with | some l => ["Last4=" ++ l] | none => []) ++
    (match resultCode with
     | some c => if c.length > 0 then ["ResultCode=" ++ c] else []
     | none => []) ++
    (match resultText with
     | some r => if r.length > 0 then ["Result=" ++ r] else []
     | none => []) ++
    (match orderId with | some o => ["OrderId=" ++ o] | none => [])
  String.intercalate " | " parts

/-- The last four characters of the masked PAN, when it has at least four. -/
def last4Of (maskedPan : Option String) : Option String :=
  match maskedPan with
  | some m =>
    if m.length ≥ 4 then some (String.mk ((m.data.reverse.take 4).reverse)) else none
  | none => none

/-- The cart request assembled for `checkoutShoppingCart`. -/
def buildCartReq (sid : String) (locked : Session) (payload : Rec)
    (resultCode resultText : Option String) (clientIdVal : JVal) : CartReq :=
  let transactionId := extractTransactionId payload
  let authCode := extractAuthCode payload
  let last4 := last4Of (extractMaskedPan payload)
  let sanitizedTxnId := sanitizeReference transactionId
  let orderId := sanitizeReference locked.cayman.orderId
  let referenceValue := sanitizedTxnId <|> orderId <|> sanitizeReference (some sid)
  { clientIdVal := clientIdVal
    items := cartItems locked.lines
    total := locked.total
    notes := buildNotes sanitizedTxnId authCode last4 resultCode resultText orderId
    inStore := locked.inStore = some true
    paymentReference := referenceValue
    externalReferenceId := referenceValue }

/-- The gateway metadata persisted on the `paid` update. -/
def paidMetadata (payload : Rec) (locked : Session) : SessionCaymanMetadata :=
  let transactionId := extractTransactionId payload
  let orderId := sanitizeReference locked.cayman.orderId
  { transactionId := sanitizeReference transactionId <|> sanitizeReference orderId
    auth := extractAuthCode payload
    last4 := last4Of (extractMaskedPan payload) }

/-- Continuation after the `await getOrCreateClient` point. -/
structure ClientKont where
  sid : String
  locked : Session
  payload : Rec
  resultCode : Option String
  resultText : Option String
  email : String
  firstName : String
  lastName : String
deriving Repr

/-- Continuation after the `await checkoutShoppingCart` point. -/
structure CheckoutKont where
  sid : String
  locked : Session
  payload : Rec
  req : CartReq
deriving Repr

/-- Program counter of one in-flight notification: `start` is before the first
synchronous segment, the `resume` states sit at the two `await` points, and
`done` carries the returned result. -/
inductive Pc where
  | start (inp : NotifInput)
  | resumeClient (k : ClientKont)
  | resumeCheckout (k : CheckoutKont)
  | done (r : CResult)
deriving Repr

/-- The tail of the first synchronous segment once a client id is in hand:
build the cart, issue the sale call, and suspend at its `await`. -/
def issueCheckout (st : Store) (sid : String) (locked : Session) (payload : Rec)
    (resultCode resultText : Option String) (clientIdVal : JVal) :
    Store × Pc × List DownCall :=
  let req := buildCartReq sid locked payload resultCode resultText clientIdVal
  (st, Pc.resumeCheckout { sid := sid, locked := locked, payload := payload, req := req },
    [DownCall.sale req])

/-- The first synchronous segment of `processCaymanNotification`: everything
from entry up to the first `await` (or an early return). This whole block runs
atomically on the JS event loop since it contains no `await`. -/
def phaseA (jsonParse : String → Option JVal) (st : Store) (inp : NotifInput) :
    Store × Pc × List DownCall :=
  let payload := mergedPayload inp
  match resolveSessionId jsonParse inp with
  | none =>
    (st, Pc.done (mkRes RStatus.missingSession none (some "sessionId not provided")), [])
  | some sid =>
    match Sessions.get st sid with
    | none =>
      (st, Pc.done (mkRes RStatus.noSession (some sid) (some "Session not found")), [])
    | some session =>
      if session.status = SessionStatus.paid then
        (st, Pc.done (mkRes RStatus.alreadyPaid (some sid) none), [])
      else if session.status = SessionStatus.processing then
        (st, Pc.done (mkRes RStatus.processing (some sid) none), [])
      else
        let info := determineSuccess payload
        if !info.isSuccess then
          let st1 := (Sessions.update st sid { status := some SessionStatus.failed }).2
          (st1, Pc.done (mkRes RStatus.failed (some sid) (some "Gateway reported failure")), [])
        else
          match Sessions.update st sid { status := some SessionStatus.processing } with
          | (none, st1) =>
            (st1, Pc.done (mkRes RStatus.noSession (some sid) (some "Session missing during processing")), [])
          | (some locked, st1) =>
            if locked.status = SessionStatus.paid then
              (st1, Pc.done (mkRes RStatus.alreadyPaid (some sid) none), [])
            else if locked.customer.isNone && locked.clientId.isNone then
              let st2 := (Sessions.update st1 sid { status := some SessionStatus.failed }).2
              (st2, Pc.done (mkRes RStatus.failed (some sid) (some "Customer data missing")), [])
            else
              match locked.clientId with
              | some cid =>
                issueCheckout st1 sid locked payload info.resultCode info.resultText
                  (JVal.str cid)
              | none =>
                match locked.customer with
                | none =>
                  let st2 := (Sessions.update st1 sid { status := some SessionStatus.failed }).2
                  (st2, Pc.done (mkRes RStatus.failed (some sid) (some "Mindbody client missing")), [])
                | some cust =>
                  (st1, Pc.resumeClient
                    { sid := sid, locked := locked, payload := payload,
                      resultCode := info.resultCode, resultText := info.resultText,
                      email := cust.email, firstName := cust.firstName,
                      lastName := cust.lastName },
                    [DownCall.client cust.email cust.firstName cust.lastName])

/-- The segment resumed after `await getOrCreateClient`: a thrown error is
caught and fails the session; otherwise the resolved id is checked for
truthiness, persisted, and the sale call issued. -/
def phaseB (w : World) (st : Store) (k : ClientKont) : Store × Pc × List DownCall :=
  match w.getOrCreateClient k.email k.firstName k.lastName with
  | Except.error msg =>
    let st1 := (Sessions.update st k.sid { status := some SessionStatus.failed }).2
    (st1, Pc.done (mkRes RStatus.failed (some k.sid) (some msg)), [])
  | Except.ok client =>
    let resolved : Option JVal :=
      (client.bind (fun c => jgetNN c "Id")) <|> (client.bind (fun c => jgetNN c "ID"))
    match resolved with
    | none =>
      let st1 := (Sessions.update st k.sid { status := some SessionStatus.failed }).2
      (st1, Pc.done (mkRes RStatus.failed (some k.sid) (some "Mindbody client missing")), [])
    | some v =>
      if jvFalsy v then
        let st1 := (Sessions.update st k.sid { status := some SessionStatus.failed }).2
        (st1, Pc.done (mkRes RStatus.failed (some k.sid) (some "Mindbody client missing")), [])
      else
        let st1 := (Sessions.update st k.sid { clientId := some (jvToStr v) }).2
        issueCheckout st1 k.sid k.locked k.payload
          (determineSuccess k.payload).resultCode (determineSuccess k.payload).resultText v

/-- The segment resumed after `await checkoutShoppingCart`: a thrown error is
caught and fails the session; success records the gateway metadata and marks
the session paid. -/
def phaseC (w : World) (st : Store) (k : CheckoutKont) : Store × Pc × List DownCall :=
  match w.checkoutShoppingCart k.req with
  | Except.error msg =>
    let st1 := (Sessions.update st k.sid { status := some SessionStatus.failed }).2
    (st1, Pc.done (mkRes RStatus.failed (some k.sid) (some msg)), [])
  | Except.ok receipt =>
    let st1 := (Sessions.update st k.sid
      { status := some SessionStatus.paid, cayman := paidMetadata k.payload k.locked }).2
    let receiptVal : Option JVal := jgetNN receipt "ReceiptId" <|> jgetNN receipt "SaleId"
    let receiptId : Option JVal :=
      match receiptVal with
      | some (JVal.str s) => some (JVal.str s)
      | some (JVal.num q) => some (JVal.num q)
      | _ => none
    (st1, Pc.done { mkRes RStatus.paid (some k.sid) none with receiptId := receiptId }, [])

/-- One atomic step of an in-flight notification (stepping a finished one is a
no-op). -/
def stepOnce (w : World) (st : Store) (pc : Pc) : Store × Pc × List DownCall :=
  match pc with
  | Pc.start inp => phaseA w.jsonParse st inp
  | Pc.resumeClient k => phaseB w st k
  | Pc.resumeCheckout k => phaseC w st k
  | Pc.done r => (st, Pc.done r, [])

/-- A configuration of one process together with the shared store and its
accumulated call log. -/
structure ProcCfg where
  store : Store
  pc : Pc
  calls : List DownCall

/-- One accumulating step. -/
def stepAcc (w : World) (c : ProcCfg) : ProcCfg :=
  let (st, pc, cs) := stepOnce w c.store c.pc
  { store := st, pc := pc, calls := c.calls ++ cs }

/-- `processCaymanNotification(input)` run to completion: every path of the
source traverses at most three synchronous segments (entry, after
`getOrCreateClient`, after `checkoutShoppingCart`). -/
def processCaymanNotification (w : World) (inp : NotifInput) (st : Store) : ProcCfg :=
  stepAcc w (stepAcc w (stepAcc w { store := st, pc := Pc.start inp, calls := [] }))

/-- The result of a completed run (defaults to an unreachable placeholder). -/
def resultOf (c : ProcCfg) : CResult :=
  match c.pc with
  | Pc.done r => r
  | _ => { status := RStatus.ignored }

/-! Model of `crypto.createHmac("sha256", _)` (FIPS 180-4 / RFC 2104, the
algorithm Node's library implements), of Node's `Buffer.from(_, "hex")`
decoding, and the embedding of `hmacVerify` from `src/lib/crypto.ts`.  Bytes
are natural numbers below 256; 32-bit words are natural numbers reduced
modulo `2 ^ 32`. -/

def m32 : ℕ := 4294967296

def add32 (a b : ℕ) : ℕ := (a + b) % m32

def rotr32 (n x : ℕ) : ℕ := (x >>> n) ||| ((x <<< (32 - n)) % m32)

def sigmaSmall0 (x : ℕ) : ℕ := (rotr32 7 x) ^^^ (rotr32 18 x) ^^^ (x >>> 3)

def sigmaSmall1 (x : ℕ) : ℕ := (rotr32 17 x) ^^^ (rotr32 19 x) ^^^ (x >>> 10)

def sigmaBig0 (x : ℕ) : ℕ := (rotr32 2 x) ^^^ (rotr32 13 x) ^^^ (rotr32 22 x)

def sigmaBig1 (x : ℕ) : ℕ := (rotr32 6 x) ^^^ (rotr32 11 x) ^^^ (rotr32 25 x)

def chFn (x y z : ℕ) : ℕ := (x &&& y) ^^^ ((x ^^^ 4294967295) &&& z)

def majFn (x y z : ℕ) : ℕ := (x &&& y) ^^^ (x &&& z) ^^^ (y &&& z)

/-- The SHA-256 round constants (decimal). -/
def sha256K : List ℕ :=
  [1116352408, 1899447441, 3049323471, 3921009573, 961987163,
   1508970993, 2453635748, 2870763221, 3624381080, 310598401,
   607225278, 1426881987, 1925078388, 2162078206, 2614888103,
   3248222580, 3835390401, 4022224774, 264347078, 604807628,
   770255983, 1249150122, 1555081692, 1996064986, 2554220882,
   2821834349, 2952996808, 3210313671, 3336571891, 3584528711,
   113926993, 338241895, 666307205, 773529912, 1294757372,
   1396182291, 1695183700, 1986661051, 2177026350, 2456956037,
   2730485921, 2820302411, 3259730800, 3345764771, 3516065817,
   3600352804, 4094571909, 275423344, 430227734, 506948616,
   659060556, 883997877, 958139571, 1322822218, 1537002063,
   1747873779, 1955562222, 2024104815, 2227730452, 2361852424,
   2428436474, 2756734187, 3204031479, 3329325298]

/-- The SHA-256 initial hash state. -/
structure Sha256State where
  a : ℕ
  b : ℕ
  c : ℕ
  d : ℕ
  e : ℕ
  f : ℕ
  g : ℕ
  h : ℕ

def sha256H0 : Sha256State :=
  { a := 1779033703, b := 3144134277, c := 1013904242, d := 2773480762,
    e := 1359893119, f := 2600822924, g := 528734635, h := 1541459225 }

/-- Big-endian 4-byte groups to 32-bit words. -/
def bytesToWords : List ℕ → List ℕ
  | b0 :: b1 :: b2 :: b3 :: rest =>
    (b0 * 16777216 + b1 * 65536 + b2 * 256 + b3) :: bytesToWords rest
  | _ => []

/-- A 32-bit word to big-endian bytes. -/
def wordToBytes (w : ℕ) : List ℕ :=
  [w / 16777216 % 256, w / 65536 % 256, w / 256 % 256, w % 256]

/-- SHA-256 padding: `0x80`, zeros to 56 mod 64, 8-byte big-endian bit
length. -/
def sha256Pad (msg : List ℕ) : List ℕ :=
  let len := msg.length
  let zeros := (64 + 56 - (len + 1) % 64) % 64
  let bitLen := 8 * len
  msg ++ [0x80] ++ List.replicate zeros 0 ++
    [bitLen / 72057594037927936 % 256, bitLen / 281474976710656 % 256,
     bitLen / 1099511627776 % 256, bitLen / 4294967296 % 256,
     bitLen / 16777216 % 256, bitLen / 65536 % 256, bitLen / 256 % 256, bitLen % 256]

/-- Split a word list into 16-word blocks (ignoring a short remainder, which
padding rules out). -/
def toBlocks : List ℕ → List (List ℕ)
  | w0 :: w1 :: w2 :: w3 :: w4 :: w5 :: w6 :: w7 ::
    w8 :: w9 :: w10 :: w11 :: w12 :: w13 :: w14 :: w15 :: rest =>
    [w0, w1, w2, w3, w4, w5, w6, w7, w8, w9, w10, w11, w12, w13, w14, w15] :: toBlocks rest
  | _ => []

/-- The 64-word message schedule of one block. -/
def sha256Schedule (block : List ℕ) : List ℕ :=
  (List.range 48).foldl
    (fun ws i =>
      ws ++ [add32 (add32 (sigmaSmall1 (ws.getD (i + 14) 0)) (ws.getD (i + 9) 0))
              (add32 (sigmaSmall0 (ws.getD (i + 1) 0)) (ws.getD i 0))])
    block

/-- One SHA-256 round. -/
def sha256Round (st : Sha256State) (kw : ℕ × ℕ) : Sha256State :=
  let t1 := add32 (add32 (add32 st.h (sigmaBig1 st.e)) (chFn st.e st.f st.g))
    (add32 kw.1 kw.2)
  let t2 := add32 (sigmaBig0 st.a) (majFn st.a st.b st.c)
  { a := add32 t1 t2, b := st.a, c := st.b, d := st.c,
    e := add32 st.d t1, f := st.e, g := st.f, h := st.g }

/-- One block compression. -/
def sha256Compress (st : Sha256State) (block : List ℕ) : Sha256State :=
  let ws := sha256Schedule block
  let r := (sha256K.zip ws).foldl sha256Round st
  { a := add32 st.a r.a, b := add32 st.b r.b, c := add32 st.c r.c,
    d := add32 st.d r.d, e := add32 st.e r.e, f := add32 st.f r.f,
    g := add32 st.g r.g, h := add32 st.h r.h }

/-- SHA-256 of a byte list. -/
def sha256 (msg : List ℕ) : List ℕ :=
  let final := (toBlocks (bytesToWords (sha256Pad msg))).foldl sha256Compress sha256H0
  wordToBytes final.a ++ wordToBytes final.b ++ wordToBytes final.c ++
  wordToBytes final.d ++ wordToBytes final.e ++ wordToBytes final.f ++
  wordToBytes final.g ++ wordToBytes final.h

/-- HMAC-SHA-256 (RFC 2104). -/
def hmacSha256 (key msg : List ℕ) : List ℕ :=
  let k0 := if key.length > 64 then sha256 key else key
  let k0p := k0 ++ List.replicate (64 - k0.length) 0
  let ipad := k0p.map (fun b => b ^^^ 0x36)
  let opad := k0p.map (fun b => b ^^^ 0x5c)
  sha256 (opad ++ sha256 (ipad ++ msg))

/-- Bytes of an ASCII string (UTF-8 restricted to the ASCII range, which is
what the secrets and headers here use). -/
def strBytes (s : String) : List ℕ := s.data.map Char.toNat

/-- Node's `Buffer.from(header, "hex")`: decodes complete leading pairs of hex
digits and stops (without throwing) at the first invalid or incomplete pair. -/
def nodeHexDecode : List Char → List ℕ
  | a :: b :: rest =>
    if isHexDigitChar a && isHexDigitChar b then
      (hexVal a * 16 + hexVal b) :: nodeHexDecode rest
    else []
  | _ => []

/-- Lowercase hex encoding of bytes. -/
def hexDigitChar (n : ℕ) : Char :=
  if n < 10 then Char.ofNat (48 + n) else Char.ofNat (87 + n)

def bytesToHex (bs : List ℕ) : String :=
  String.mk (bs.foldr (fun b acc => hexDigitChar (b / 16) :: hexDigitChar (b % 16) :: acc) [])

/-- `hmacVerify(raw, header, secret)` from `src/lib/crypto.ts`: a missing or
empty header is rejected; the header is hex-decoded Node-style; a length
mismatch with the expected digest is rejected; otherwise
`crypto.timingSafeEqual` is byte equality (neither `Buffer.from` nor the
guarded `timingSafeEqual` can throw, so the function is total). -/
def hmacVerify (raw : List ℕ) (header : Option String) (secret : String) : Bool :=
  match header with
  | none => false
  | some h =>
    if h = "" then false
    else
      let expected := hmacSha256 (strBytes secret) raw
      let provided := nodeHexDecode h.data
      if expected.length ≠ provided.length then false
      else expected = provided

/-! Embedding of the HTTP handler `handleCaymanNotification`
(`src/routes/webhooks.ts`, mounted at `/webhook/cayman`) and of the legacy
signed webhook endpoint (`src/controllers/legacyCaymanWebhookController.ts`,
mounted at `/webhooks/cayman`). -/

/-- An inbound HTTP request as the handlers see it: method, parsed query,
parsed body, original URL, raw body bytes (when the route uses `express.raw`),
and the `cayman-signature` header (`none` models an unsigned request). -/
structure HttpRequest where
  method : String := "POST"
  query : Rec := []
  body : Option JVal := none
  originalUrl : Option String := none
  rawBody : Option (List ℕ) := none
  caymanSignature : Option String := none

/-- The response of `handleCaymanNotification`: `res.json({received: true,
...result})` always carries HTTP status 200 (`res.json` never sets another
status in this handler). -/
structure WebhookResponse where
  httpStatus : ℕ
  received : Bool
  result : CResult

/-- `handleCaymanNotification(req, res)`: builds the orchestrator input from
the request and replies with the result as JSON; no signature header is ever
read and no non-200 status is ever produced. -/
def handleCaymanNotification (w : World) (st : Store) (req : HttpRequest) :
    WebhookResponse × Store × List DownCall :=
  let inp : NotifInput :=
    { source := some (if req.method = "GET" then "webhook:get" else "webhook:post")
      query := some (JVal.obj req.query)
      body := req.body
      rawQuery := extractRawQuery req.originalUrl }
  let c := processCaymanNotification w inp st
  ({ httpStatus := 200, received := true, result := resultOf c }, c.store, c.calls)

/-- The external collaborators of the legacy webhook controller. -/
structure LegacyWorld where
  jsonParseBytes : List ℕ → Option JVal
  issueStaffUserToken : Except String String
  upsertClient : String → String → Except String Rec
  checkoutShoppingCart : String → Rec → Except String Rec

/-- A downstream call of the legacy controller. -/
inductive LegacyCall where
  | token
  | upsert (accessToken email : String)
  | sale (accessToken : String) (payload : Rec)
deriving Repr

/-- The legacy controller's JSON response, with its HTTP status. -/
structure LegacyResponse where
  httpStatus : ℕ
  ok : Bool := false
  deduped : Bool := false
  ignored : Bool := false
  error : Option String := none
deriving DecidableEq, Repr

/-- `once(key)` from the idempotency guard: `true` and the key recorded on
first sight, `false` within the TTL window (wall-clock expiry is outside this
model, which covers the window in which redeliveries arrive). -/
def once (seen : List String) (key : String) : Bool × List String :=
  if seen.contains key then (false, seen)
  else (true, key :: seen)

/-- The legacy sale checkout payload (`services/mindbody.checkoutShoppingCart`
argument). -/
def legacySalePayload (clientId : JVal) (itemId itemType : String) (amount : ℚ)
    (notes : String) : Rec :=
  [("clientId", clientId), ("itemId", JVal.str itemId),
   ("itemType", JVal.str itemType), ("amountPaid", JVal.num amount),
   ("notes", JVal.str notes)]

/-- `parseClientId(value)` from the legacy controller. -/
def parseClientId : JVal → Option JVal
  | JVal.num q => some (JVal.num q)
  | JVal.str s => if jsTrim s ≠ "" then some (JVal.str (jsTrim s)) else none
  | _ => none

/-- `parseAmount(value)` from the legacy controller (string parsing modelled by
`jsNumber`, with `parseFloat` of a blank string being `NaN`). -/
def parseAmount : JVal → Option ℚ
  | JVal.num q => some q
  | JVal.str s => if jsTrim s = "" then none else jsNumber s
  | _ => none

/-- Strict equality `event.status === "succeeded"`. -/
def isSucceededStatus : Option JVal → Bool
  | some (JVal.str s) => s = "succeeded"
  | _ => false

/-- `createLegacyCaymanWebhookHandler()`: verifies the raw body's HMAC
signature, rejects with HTTP 400 before any downstream work when it is missing
or wrong, dedupes by gateway event id, ignores non-succeeded events, and
otherwise resolves a client and posts the sale.  Any thrown error is caught
and surfaced as a 400 with the error message. -/
def legacyCaymanWebhookHandler (w : LegacyWorld) (secret : String)
    (seen : List String) (req : HttpRequest) :
    LegacyResponse × List String × List LegacyCall :=
  match req.rawBody with
  | none => ({ httpStatus := 400, error := some "Missing raw request body" }, seen, [])
  | some raw =>
    if !hmacVerify raw req.caymanSignature secret then
      ({ httpStatus := 400, error := some "Invalid Cayman webhook signature" }, seen, [])
    else
      match w.jsonParseBytes raw with
      | none => ({ httpStatus := 400, error := some "Invalid JSON webhook payload" }, seen, [])
      | some ev =>
        let evRec := toRecord (some ev)
        match jget evRec "id" with
        | none => ({ httpStatus := 400, error := some "Webhook event missing id" }, seen, [])
        | some idVal =>
          if jvFalsy idVal then
            ({ httpStatus := 400, error := some "Webhook event missing id" }, seen, [])
          else
            let key := "cg:" ++ jvToStr idVal
            match once seen key with
            | (false, seen1) => ({ httpStatus := 200, ok := true, deduped := true }, seen1, [])
            | (true, seen1) =>
              if !isSucceededStatus (jget evRec "status") then
                ({ httpStatus := 200, ok := true, ignored := true }, seen1, [])
              else
                let metadata := toRecord (jget evRec "metadata")
                let itemId := jget metadata "itemId"
                let itemType := jget metadata "itemType"
                if itemId.isNone || itemId.any jvFalsy || itemType.isNone ||
                    itemType.any jvFalsy then
                  ({ httpStatus := 400,
                     error := some "Webhook metadata missing itemId or itemType" }, seen1, [])
                else
                  match (jget evRec "amount").bind parseAmount with
                  | none =>
                    ({ httpStatus := 400,
                       error := some "Webhook amount missing or invalid" }, seen1, [])
                  | some rawAmount =>
                    match w.issueStaffUserToken with
                    | Except.error msg =>
                      ({ httpStatus := 400, error := some msg }, seen1, [LegacyCall.token])
                    | Except.ok accessToken =>
                      let clientIdSrc := jget metadata "clientId"
                      let resolveClient : Except String JVal :=
                        match clientIdSrc with
                        | some (JVal.str s) => Except.ok (JVal.str s)
                        | some (JVal.num q) => Except.ok (JVal.num q)
                        | _ =>
                          match jget metadata "email" with
                          | some (JVal.str email) =>
                            match w.upsertClient accessToken email with
                            | Except.error msg => Except.error msg
                            | Except.ok client =>
                              match jget client "Id" with
                              | some v => Except.ok v
                              | none => Except.ok JVal.jnull
                          | _ => Except.error "Webhook metadata missing clientId and email"
                      match resolveClient with
                      | Except.error msg =>
                        if msg = "Webhook metadata missing clientId and email" then
                          ({ httpStatus := 400, error := some msg }, seen1, [LegacyCall.token])
                        else
                          ({ httpStatus := 400, error := some msg }, seen1,
                            [LegacyCall.token] ++
                            (match jget metadata "email" with
                             | some (JVal.str email) => [LegacyCall.upsert accessToken email]
                             | _ => []))
                      | Except.ok clientId =>
                        let upsertLog :=
                          match clientIdSrc with
                          | some (JVal.str _) => []
                          | some (JVal.num _) => []
                          | _ =>
                            match jget metadata "email" with
                            | some (JVal.str email) => [LegacyCall.upsert accessToken email]
                            | _ => []
                        let normalizedClient := (parseClientId clientId).getD
                          (JVal.str (jvToStr clientId))
                        let payload := legacySalePayload normalizedClient
                          (jvToStr (itemId.getD JVal.jnull))
                          (jvToStr (itemType.getD JVal.jnull))
                          (rawAmount / 100)
                          ("Cayman " ++ jvToStr idVal)
                        match w.checkoutShoppingCart accessToken payload with
                        | Except.error msg =>
                          ({ httpStatus := 400, error := some msg }, seen1,
                            [LegacyCall.token] ++ upsertLog ++
                            [LegacyCall.sale accessToken payload])
                        | Except.ok _ =>
                          ({ httpStatus := 200, ok := true }, seen1,
                            [LegacyCall.token] ++ upsertLog ++
                            [LegacyCall.sale accessToken payload])

/-! Embedding of the session constructors of the checkout-initiation paths
(`createCheckoutSessionHandler` and `createStaffPayHandler`). -/

/-- Rounding to two decimal places, the model of
`Number.parseFloat(x.toFixed(2))` on the (non-negative, decimal) monetary
amounts this code handles. -/
def round2 (q : ℚ) : ℚ := (round (q * 100) : ℚ) / 100

/-- The sum of a session's line extensions. -/
def linesSum (lines : List SessionLine) : ℚ :=
  (lines.map (fun l => l.unitPrice * l.qty)).sum

/-- The quantity resolution `Number.isInteger(qty) && qty > 0 ? qty : 1` of
`createCheckoutSessionHandler`. -/
def resolveQty (qty : Option ℤ) : ℤ :=
  match qty with
  | some q => if q > 0 then q else 1
  | none => 1

/-- The session built and saved by `createCheckoutSessionHandler`
(`total = Number.parseFloat((unitPrice * quantity).toFixed(2))`, one line at
the raw unit price). -/
def createCheckoutSession (sessionId siteKey : String) (customer : SessionCustomer)
    (productId name : String) (unitPrice : ℚ) (qty : Option ℤ) (orderId : String) :
    Session :=
  let quantity := resolveQty qty
  { id := sessionId
    siteKey := siteKey
    customer := some customer
    lines := [{ productId := productId, name := name, unitPrice := unitPrice,
                qty := (quantity : ℚ) }]
    total := round2 (unitPrice * (quantity : ℚ))
    status := SessionStatus.created
    inStore := some false
    cayman := { orderId := some orderId } }

/-- The `toPrice` normalisation of the staff catalog
(`Number.parseFloat(value.toFixed(2))`). -/
def toPrice (value : ℚ) : ℚ := round2 value

/-- The session built and saved by `createStaffPayHandler`: the selected item's
catalog price (already passed through `toPrice`) is re-rounded into `amount`,
used both as the single line's unit price (qty 1) and as the total. -/
def createStaffPaySession (sessionId siteKey : String) (customer : SessionCustomer)
    (itemPrice : ℚ) (itemId itemName itemType : String) (clientId : Option String)
    (orderId : String) : Session :=
  let amount := round2 (toPrice itemPrice)
  { id := sessionId
    siteKey := siteKey
    customer := some customer
    lines := [{ productId := itemId, name := itemName, unitPrice := amount,
                qty := 1, lineType := some itemType }]
    total := amount
    status := SessionStatus.created
    inStore := some (itemType = "Product")
    clientId := clientId
    cayman := { orderId := some orderId } }

/-! Interleaved execution of two concurrent notifications.  The JS event loop
runs each synchronous segment (the pieces between `await` points) atomically;
a schedule picks which in-flight notification's next segment runs. -/

/-- A configuration of two concurrent webhook deliveries sharing the store. -/
structure Cfg2 where
  store : Store
  pc1 : Pc
  calls1 : List DownCall
  pc2 : Pc
  calls2 : List DownCall

/-- Step the first or the second process, atomically. -/
def step2 (w : World) (who : Bool) (c : Cfg2) : Cfg2 :=
  if who then
    let (st, pc, cs) := stepOnce w c.store c.pc2
    { c with store := st, pc2 := pc, calls2 := c.calls2 ++ cs }
  else
    let (st, pc, cs) := stepOnce w c.store c.pc1
    { c with store := st, pc1 := pc, calls1 := c.calls1 ++ cs }

/-- Run a schedule (a list of choices) over a two-process configuration. -/
def exec2 (w : World) (sched : List Bool) (c : Cfg2) : Cfg2 :=
  sched.foldl (fun acc who => step2 w who acc) c

/-- The initial configuration for two deliveries against a common store. -/
def initCfg2 (st : Store) (inp1 inp2 : NotifInput) : Cfg2 :=
  { store := st, pc1 := Pc.start inp1, calls1 := [], pc2 := Pc.start inp2, calls2 := [] }

/-- Whether a process has finished. -/
def isDone : Pc → Bool
  | Pc.done _ => true
  | _ => false

/-- The number of downstream sale-checkout calls made across both processes. -/
def totalSaleCalls (c : Cfg2) : ℕ :=
  (saleCalls c.calls1).length + (saleCalls c.calls2).length

/-! Supporting lemmas about the session store. -/

/-- The status of the session stored under `sid`. -/
def statusOf (st : Store) (sid : String) : Option SessionStatus :=
  (Sessions.get st sid).map (fun s => s.status)

theorem get_setEntry_self (st : Store) (id : String) (s : Session) :
    Sessions.get (Sessions.setEntry st id s) id = some s := by
  induction st with
  | nil => simp [Sessions.setEntry, Sessions.get]
  | cons hd tl ih =>
    by_cases h : hd.1 = id
    · simp [Sessions.setEntry, Sessions.get, h]
    · simpa [Sessions.setEntry, Sessions.get, h, List.find?] using ih

theorem get_setEntry_other (st : Store) (id : String) (s : Session) (id2 : String)
    (h : id2 ≠ id) :
    Sessions.get (Sessions.setEntry st id s) id2 = Sessions.get st id2 := by
  have hne : id ≠ id2 := fun hh => h hh.symm
  induction st with
  | nil => simp [Sessions.setEntry, Sessions.get, List.find?, hne]
  | cons hd tl ih =>
    obtain ⟨k, v⟩ := hd
    by_cases h1 : k = id
    · subst h1
      simp [Sessions.setEntry, Sessions.get, List.find?, hne]
    · by_cases h2 : k = id2
      · subst h2
        simp [Sessions.setEntry, Sessions.get, List.find?, h1, hne.symm]
      · simpa [Sessions.setEntry, Sessions.get, List.find?, h1, h2] using ih

theorem update_found (st : Store) (id : String) (p : SessionPatch) (e : Session)
    (h : Sessions.get st id = some e) :
    Sessions.update st id p =
      (some (Sessions.mergeSession e p),
       Sessions.setEntry st id (Sessions.mergeSession e p)) := by
  simp [Sessions.update, h]

theorem update_missing (st : Store) (id : String) (p : SessionPatch)
    (h : Sessions.get st id = none) :
    Sessions.update st id p = (none, st) := by
  simp [Sessions.update, h]

theorem get_update_self (st : Store) (id : String) (p : SessionPatch) (e : Session)
    (h : Sessions.get st id = some e) :
    Sessions.get (Sessions.update st id p).2 id = some (Sessions.mergeSession e p) := by
  rw [update_found st id p e h]
  exact get_setEntry_self st id _

theorem mergeSession_status_some (e : Session) (p : SessionPatch) (x : SessionStatus)
    (h : p.status = some x) : (Sessions.mergeSession e p).status = x := by
  simp [Sessions.mergeSession, h]

theorem mergeSession_status_none (e : Session) (p : SessionPatch)
    (h : p.status = none) : (Sessions.mergeSession e p).status = e.status := by
  simp [Sessions.mergeSession, h]

theorem saleCalls_append (a b : List DownCall) :
    saleCalls (a ++ b) = saleCalls a ++ saleCalls b := by
  simp [saleCalls]

theorem saleCalls_client (e f l : String) :
    saleCalls [DownCall.client e f l] = [] := rfl

theorem saleCalls_sale (req : CartReq) : saleCalls [DownCall.sale req] = [req] := rfl

/-! Characterization of the three synchronous segments of
`processCaymanNotification`, used by the claim proofs below. -/

/-- The outcomes of the first segment after the `created`→`processing` lock
has been taken. -/
def PostLock (j : String → Option JVal) (st : Store) (inp : NotifInput)
    (sid : String) (s : Session) : Prop :=
  let locked := Sessions.mergeSession s { status := some SessionStatus.processing }
  let st1 := Sessions.setEntry st sid locked
  let payload := mergedPayload inp
  let info := determineSuccess payload
  (locked.customer = none ∧ locked.clientId = none ∧
    phaseA j st inp = ((Sessions.update st1 sid { status := some SessionStatus.failed }).2,
      Pc.done (mkRes RStatus.failed (some sid) (some "Customer data missing")), [])) ∨
  (∃ cid, locked.clientId = some cid ∧
    phaseA j st inp = (st1, Pc.resumeCheckout
      ⟨sid, locked, payload,
        buildCartReq sid locked payload info.resultCode info.resultText (JVal.str cid)⟩,
      [DownCall.sale (buildCartReq sid locked payload info.resultCode info.resultText (JVal.str cid))])) ∨
  (locked.clientId = none ∧ ∃ cust, locked.customer = some cust ∧
    phaseA j st inp = (st1, Pc.resumeClient
      ⟨sid, locked, payload, info.resultCode, info.resultText, cust.email, cust.firstName,
        cust.lastName⟩,
      [DownCall.client cust.email cust.firstName cust.lastName]))

theorem phaseA_spec (j : String → Option JVal) (st : Store) (inp : NotifInput) :
    (resolveSessionId j inp = none ∧
      phaseA j st inp = (st, Pc.done (mkRes RStatus.missingSession none
        (some "sessionId not provided")), [])) ∨
    (∃ sid, resolveSessionId j inp = some sid ∧
      ((Sessions.get st sid = none ∧
          phaseA j st inp = (st, Pc.done (mkRes RStatus.noSession (some sid)
            (some "Session not found")), [])) ∨
       (∃ s, Sessions.get st sid = some s ∧
         ((s.status = SessionStatus.paid ∧
             phaseA j st inp = (st, Pc.done (mkRes RStatus.alreadyPaid (some sid) none), [])) ∨
          (s.status = SessionStatus.processing ∧
             phaseA j st inp = (st, Pc.done (mkRes RStatus.processing (some sid) none), [])) ∨
          (s.status ≠ SessionStatus.paid ∧ s.status ≠ SessionStatus.processing ∧
            (((determineSuccess (mergedPayload inp)).isSuccess = false ∧
               phaseA j st inp = ((Sessions.update st sid
                   { status := some SessionStatus.failed }).2,
                 Pc.done (mkRes RStatus.failed (some sid)
                   (some "Gateway reported failure")), [])) ∨
             ((determineSuccess (mergedPayload inp)).isSuccess = true ∧
               PostLock j st inp sid s))))))) := by
  rcases hsid : resolveSessionId j inp with _ | sid
  · exact Or.inl ⟨rfl, by simp [phaseA, hsid]⟩
  · refine Or.inr ⟨sid, rfl, ?_⟩
    rcases hget : Sessions.get st sid with _ | s
    · exact Or.inl ⟨rfl, by simp [phaseA, hsid, hget]⟩
    · refine Or.inr ⟨s, rfl, ?_⟩
      by_cases hp : s.status = SessionStatus.paid
      · exact Or.inl ⟨hp, by simp [phaseA, hsid, hget, hp]⟩
      · by_cases hpr : s.status = SessionStatus.processing
        · exact Or.inr (Or.inl ⟨hpr, by simp [phaseA, hsid, hget, hp, hpr]⟩)
        · refine Or.inr (Or.inr ⟨hp, hpr, ?_⟩)
          by_cases hsu : (determineSuccess (mergedPayload inp)).isSuccess = true
          · refine Or.inr ⟨hsu, ?_⟩
            have hupd := update_found st sid { status := some SessionStatus.processing } s hget
            set locked := Sessions.mergeSession s { status := some SessionStatus.processing }
              with hlocked
            have hlockst : locked.status = SessionStatus.processing :=
              mergeSession_status_some s _ _ rfl
            rcases hcid : locked.clientId with _ | cid
            · rcases hcust : locked.customer with _ | cust
              · exact Or.inl ⟨hcust, hcid,
                  by simp [phaseA, hsid, hget, hp, hpr, hsu, hupd, hlockst, hcust, hcid]⟩
              · refine Or.inr (Or.inr ⟨hcid, cust, hcust, ?_⟩)
                simp [phaseA, hsid, hget, hp, hpr, hsu, hupd, hlockst, hcust, hcid,
                  issueCheckout]
            · refine Or.inr (Or.inl ⟨cid, hcid, ?_⟩)
              simp [phaseA, hsid, hget, hp, hpr, hsu, hupd, hlockst, hcid, issueCheckout]
          · have hsu' : (determineSuccess (mergedPayload inp)).isSuccess = false :=
              Bool.eq_false_iff.mpr hsu
            exact Or.inl ⟨hsu', by simp [phaseA, hsid, hget, hp, hpr, hsu']⟩

theorem phaseB_spec (w : World) (st : Store) (k : ClientKont) :
    (∃ r, r.status = RStatus.failed ∧ r.sessionId = some k.sid ∧
      phaseB w st k = ((Sessions.update st k.sid { status := some SessionStatus.failed }).2,
        Pc.done r, [])) ∨
    (∃ v, jvFalsy v = false ∧
      phaseB w st k = ((Sessions.update st k.sid { clientId := some (jvToStr v) }).2,
        Pc.resumeCheckout
          ⟨k.sid, k.locked, k.payload,
            buildCartReq k.sid k.locked k.payload
              (determineSuccess k.payload).resultCode (determineSuccess k.payload).resultText v⟩,
        [DownCall.sale (buildCartReq k.sid k.locked k.payload
          (determineSuccess k.payload).resultCode (determineSuccess k.payload).resultText v)])) := by
  rcases hres : w.getOrCreateClient k.email k.firstName k.lastName with msg | client
  · exact Or.inl ⟨mkRes RStatus.failed (some k.sid) (some msg), rfl, rfl,
      by simp [phaseB, hres]⟩
  · rcases hid : (client.bind (fun c => jgetNN c "Id")) <|> (client.bind (fun c => jgetNN c "ID"))
      with _ | v
    · exact Or.inl ⟨mkRes RStatus.failed (some k.sid) (some "Mindbody client missing"), rfl, rfl,
        by simp [phaseB, hres, hid]⟩
    · by_cases hfal : jvFalsy v = true
      · exact Or.inl ⟨mkRes RStatus.failed (some k.sid) (some "Mindbody client missing"), rfl, rfl,
          by simp [phaseB, hres, hid, hfal]⟩
      · have hfal' : jvFalsy v = false := Bool.eq_false_iff.mpr hfal
        exact Or.inr ⟨v, hfal', by simp [phaseB, hres, hid, hfal', issueCheckout]⟩

/-- The result value of the successful checkout branch. -/
def paidResult (sid : String) (receipt : Rec) : CResult :=
  { status := RStatus.paid
    sessionId := some sid
    detail := none
    receiptId :=
      match jgetNN receipt "ReceiptId" <|> jgetNN receipt "SaleId" with
      | some (JVal.str s) => some (JVal.str s)
      | some (JVal.num q) => some (JVal.num q)
      | _ => none }

theorem phaseC_spec (w : World) (st : Store) (k : CheckoutKont) :
    (∃ r, r.status = RStatus.failed ∧ r.sessionId = some k.sid ∧
      phaseC w st k = ((Sessions.update st k.sid { status := some SessionStatus.failed }).2,
        Pc.done r, [])) ∨
    (∃ r, r.status = RStatus.paid ∧ r.sessionId = some k.sid ∧
      phaseC w st k =
        ((Sessions.update st k.sid
            (SessionPatch.mk none none none none none (some SessionStatus.paid)
              (paidMetadata k.payload k.locked) none none)).2, Pc.done r, [])) := by
  rcases hck : w.checkoutShoppingCart k.req with msg | receipt
  · exact Or.inl ⟨mkRes RStatus.failed (some k.sid) (some msg), rfl, rfl,
      by simp [phaseC, hck]⟩
  · refine Or.inr ⟨paidResult k.sid receipt, rfl, rfl, ?_⟩
    simp [phaseC, paidResult, hck, mkRes]

/-! Claim-side (specification) definitions used to compare the spec's wording
with the code, and the claim theorems. -/

/-- The success predicate as the specification words it: explicit true flag,
or known success code, or known success text, or the lenient fallback only
when all three signals are absent and a transaction id is present with no
explicit failure flag. -/
def specSuccess (p : Rec) : Bool :=
  (successFlagOf p = some true) ||
  (match normalizedCodeOf p with
   | some c => successCodes.contains c
   | none => false) ||
  (match loweredResultOf p with
   | some r => successTexts.contains r
   | none => false) ||
  (normalizedCodeOf p = none && loweredResultOf p = none && successFlagOf p = none &&
    hasTransactionIdOf p)

/-- The success predicate as the code actually computes it (the amended claim):
the lenient fallback fires whenever a transaction id is present, the success
flag is not explicitly false, and the result code is absent, empty, or itself
a success code — the textual result is not consulted by the fallback. -/
def amendedSuccess (p : Rec) : Bool :=
  (match normalizedCodeOf p with
   | some c => successCodes.contains c
   | none => false) ||
  (match loweredResultOf p with
   | some r => successTexts.contains r
   | none => false) ||
  (successFlagOf p = some true) ||
  (hasTransactionIdOf p && successFlagOf p ≠ some false &&
    (match normalizedCodeOf p with
     | none => true
     | some c => c = "" || successCodes.contains c))

/-- Rounding to two decimals is idempotent. -/
theorem round2_idem (q : ℚ) : round2 (round2 q) = round2 q := by
  unfold round2
  rw [div_mul_cancel₀ _ (by norm_num : (100 : ℚ) ≠ 0), round_intCast]

/-- The sequential run on a not-yet-terminal session with an unsuccessful
notification marks the session failed and makes no downstream call. -/
theorem run_not_success (w : World) (inp : NotifInput) (st : Store) (sid : String)
    (s : Session) (h1 : resolveSessionId w.jsonParse inp = some sid)
    (h2 : Sessions.get st sid = some s) (hp : s.status ≠ SessionStatus.paid)
    (hpr : s.status ≠ SessionStatus.processing)
    (h4 : (determineSuccess (mergedPayload inp)).isSuccess = false) :
    processCaymanNotification w inp st =
      { store := (Sessions.update st sid { status := some SessionStatus.failed }).2,
        pc := Pc.done (mkRes RStatus.failed (some sid) (some "Gateway reported failure")),
        calls := [] } := by
  simp [processCaymanNotification, stepAcc, stepOnce, phaseA, h1, h2, hp, hpr, h4]

/-- Claim C2 (corrected).  The notification is judged successful exactly by
`amendedSuccess`: a known success result-code, or a known success text, or an
explicitly true success flag, or the lenient fallback — a transaction id
present, no explicitly false flag, and the result-code absent, empty, or in
the success set (the textual result is not consulted by the fallback, contrary
to the original claim's "all three signals absent"). When the notification is
judged not successful on a `created` session, the session is marked `failed`
and no downstream call is made. -/
theorem c2_success_criterion :
    (∀ p : Rec, (determineSuccess p).isSuccess = amendedSuccess p) ∧
    (∀ (w : World) (inp : NotifInput) (st : Store) (sid : String) (s : Session),
      resolveSessionId w.jsonParse inp = some sid →
      Sessions.get st sid = some s →
      s.status = SessionStatus.created →
      (determineSuccess (mergedPayload inp)).isSuccess = false →
      processCaymanNotification w inp st =
        { store := (Sessions.update st sid { status := some SessionStatus.failed }).2,
          pc := Pc.done (mkRes RStatus.failed (some sid) (some "Gateway reported failure")),
          calls := [] } ∧
      statusOf (processCaymanNotification w inp st).store sid = some SessionStatus.failed) := by
  constructor
  · intro p
    rfl
  · intro w inp st sid s h1 h2 hcr h4
    have hp : s.status ≠ SessionStatus.paid := by rw [hcr]; intro hh; cases hh
    have hpr : s.status ≠ SessionStatus.processing := by rw [hcr]; intro hh; cases hh
    have hrun := run_not_success w inp st sid s h1 h2 hp hpr h4
    refine ⟨hrun, ?_⟩
    rw [hrun]
    simp [statusOf, get_update_self st sid _ s h2, Sessions.mergeSession]

/-- The payload refuting claim C2 as stated: a textual result `"declined"`
together with a transaction id. -/
def c2payload : Rec := [("result", JVal.str "declined"), ("transaction-id", JVal.str "T1")]

/-- Claim C2 counterexample: on `{result: "declined", "transaction-id": "T1"}`
the code judges the notification successful (the fallback ignores the textual
result), while the claim's criterion — which requires all three signals absent
for the fallback — judges it unsuccessful.  The claimed equivalence is false. -/
theorem c2_counterexample :
    (determineSuccess c2payload).isSuccess = true ∧ specSuccess c2payload = false :=
  ⟨by decide, by decide⟩

/-- Claim C7 (confirmed).  For both checkout-initiation paths, the session's
total at creation equals the sum of its line extensions rounded to two decimal
places: the public checkout path stores `round2(unitPrice * qty)` over a
single line priced at the raw unit price, and the staff path stores the
twice-rounded catalog price as both the line price and the total (rounding is
idempotent, so the consistency equation holds exactly). -/
theorem c7_total_consistency :
    (∀ (sessionId siteKey : String) (customer : SessionCustomer)
       (productId name : String) (unitPrice : ℚ) (qty : Option ℤ) (orderId : String),
      (createCheckoutSession sessionId siteKey customer productId name unitPrice qty
        orderId).total =
        round2 (linesSum (createCheckoutSession sessionId siteKey customer productId name
          unitPrice qty orderId).lines)) ∧
    (∀ (sessionId siteKey : String) (customer : SessionCustomer) (itemPrice : ℚ)
       (itemId itemName itemType : String) (clientId : Option String) (orderId : String),
      (createStaffPaySession sessionId siteKey customer itemPrice itemId itemName itemType
        clientId orderId).total =
        round2 (linesSum (createStaffPaySession sessionId siteKey customer itemPrice itemId
          itemName itemType clientId orderId).lines)) := by
  constructor
  · intro sessionId siteKey customer productId name unitPrice qty orderId
    simp [createCheckoutSession, linesSum]
  · intro sessionId siteKey customer itemPrice itemId itemName itemType clientId orderId
    simp [createStaffPaySession, linesSum, toPrice, round2_idem]

/-- Claim C9 (confirmed). `update` shallow-merges the patch at the top level
and nested-merges the gateway-metadata sub-object: every top-level field not
named in the patch keeps its prior value, every `cayman` field not named in
the patch's metadata keeps its prior value (so writing `transactionId` does
not erase a recorded `orderId`), named fields take the patch value, and
updating an absent id returns `none` and leaves the store unchanged. -/
theorem c9_update_merge (st : Store) (id : String) (patch : SessionPatch) :
    (∀ e, Sessions.get st id = some e →
      ∃ s', Sessions.update st id patch = (some s', Sessions.setEntry st id s') ∧
        Sessions.get (Sessions.update st id patch).2 id = some s' ∧
        (patch.id = none → s'.id = e.id) ∧
        (patch.siteKey = none → s'.siteKey = e.siteKey) ∧
        (patch.customer = none → s'.customer = e.customer) ∧
        (patch.lines = none → s'.lines = e.lines) ∧
        (patch.total = none → s'.total = e.total) ∧
        (patch.status = none → s'.status = e.status) ∧
        (patch.clientId = none → s'.clientId = e.clientId) ∧
        (patch.inStore = none → s'.inStore = e.inStore) ∧
        (patch.cayman.orderId = none → s'.cayman.orderId = e.cayman.orderId) ∧
        (patch.cayman.transactionId = none →
          s'.cayman.transactionId = e.cayman.transactionId) ∧
        (patch.cayman.auth = none → s'.cayman.auth = e.cayman.auth) ∧
        (patch.cayman.last4 = none → s'.cayman.last4 = e.cayman.last4) ∧
        (∀ x, patch.status = some x → s'.status = x) ∧
        (∀ t, patch.cayman.transactionId = some t → s'.cayman.transactionId = some t) ∧
        (∀ c, patch.clientId = some c → s'.clientId = some c)) ∧
    (Sessions.get st id = none → Sessions.update st id patch = (none, st)) := by
  constructor
  · intro e he
    refine ⟨Sessions.mergeSession e patch, update_found st id patch e he,
      get_update_self st id patch e he, ?_, ?_, ?_, ?_, ?_, ?_, ?_, ?_, ?_, ?_, ?_, ?_,
      ?_, ?_, ?_⟩ <;>
      first
        | (intro h; simp [Sessions.mergeSession, h])
        | (intro x h; simp [Sessions.mergeSession, h])
  · intro h
    exact update_missing st id patch h

/-- The session, store and patch exercising claim C9's metadata example. -/
def c9exSess : Session :=
  { id := "a", siteKey := "k", lines := [], total := 0, status := SessionStatus.created,
    cayman := { orderId := some "ord" } }

def c9exSt : Store := [("a", c9exSess)]

def c9exPatch : SessionPatch := { cayman := { transactionId := some "tx" } }

/-- Claim C9 witness: patching only `cayman.transactionId` keeps `orderId` and
the status, and records the transaction id. -/
theorem c9_witness :
    ∃ s', Sessions.update c9exSt "a" c9exPatch = (some s', Sessions.setEntry c9exSt "a" s') ∧
      s'.cayman.orderId = some "ord" ∧ s'.cayman.transactionId = some "tx" ∧
      s'.status = SessionStatus.created := by
  obtain ⟨hfound, _⟩ := c9_update_merge c9exSt "a" c9exPatch
  obtain ⟨s', hupd, _, _, _, _, _, _, hstat, _, _, hord, _, _, _, _, htx, _⟩ :=
    hfound c9exSess rfl
  exact ⟨s', hupd, (hord rfl).trans rfl, htx "tx" rfl, (hstat rfl).trans rfl⟩

/-- Claim C10 (corrected).  `hmacVerify` is total and returns `true` exactly
when the header is present, non-empty, and its Node-style hex prefix-decoding
equals the HMAC-SHA-256 digest of the raw bytes under the secret; it returns
`false` on a missing header or any length or content mismatch.  (Node's
`Buffer.from(h, "hex")` decodes the longest leading run of complete hex pairs
and never throws, so — contrary to the original claim — a malformed header
whose valid prefix decodes to the digest is accepted.) -/
theorem c10_hmacVerify_characterization :
    ∀ (raw : List ℕ) (header : Option String) (secret : String),
      hmacVerify raw header secret = true ↔
        ∃ h, header = some h ∧ h ≠ "" ∧
          nodeHexDecode h.data = hmacSha256 (strBytes secret) raw := by
  intro raw header secret
  cases header with
  | none => simp [hmacVerify]
  | some h =>
    by_cases he : h = ""
    · simp [hmacVerify, he]
    · constructor
      · intro hv
        refine ⟨h, rfl, he, ?_⟩
        by_cases hl : (hmacSha256 (strBytes secret) raw).length = (nodeHexDecode h.data).length
        · simp only [hmacVerify, he, if_false, hl, ne_eq, not_true_eq_false,
            decide_eq_true_eq] at hv
          · exact hv.symm
        · simp [hmacVerify, he, hl] at hv
      · rintro ⟨h', hh, -, hdec⟩
        have hh' : h' = h := by injection hh with hh2; exact hh2.symm
        subst hh'
        have hl : (hmacSha256 (strBytes secret) raw).length = (nodeHexDecode h'.data).length := by
          rw [hdec]
        simp [hmacVerify, he, hl, hdec]

/-- The hex digest of HMAC-SHA-256("k", "a"), and a malformed header carrying
it as a valid prefix. -/
def c10DigestHex : String := bytesToHex (hmacSha256 (strBytes "k") (strBytes "a"))

def c10BadHeader : String := c10DigestHex ++ "zz"

set_option maxRecDepth 100000 in
/-- Claim C10 counterexample: the header `hex(digest) ++ "zz"` is not a
well-formed hex encoding of a 32-byte digest, yet `hmacVerify` accepts it,
because Node's hex decoding silently drops the malformed tail.  The claim's
"returns false whenever the header is not a well-formed encoding of a digest
of the expected length" is false. -/
theorem c10_counterexample :
    hmacVerify (strBytes "a") (some c10BadHeader) "k" = true ∧
    c10BadHeader.data.all isHexDigitChar = false ∧
    c10BadHeader.length ≠ 64 := by
  refine ⟨by decide, by decide, by decide⟩

/-- A world whose downstream calls all fail (no call should be reached in the
scenarios using it). -/
def noopWorld : World :=
  { jsonParse := fun _ => none
    getOrCreateClient := fun _ _ _ => Except.error "down"
    checkoutShoppingCart := fun _ => Except.error "down" }

/-- The world, session, store and failure notification of claim C2's example
(`result: "0"` on a `created` session). -/
def c2exSess : Session :=
  { id := "s1", siteKey := "k", lines := [], total := 0, status := SessionStatus.created }

def c2exSt : Store := [("s1", c2exSess)]

def c2exInp : NotifInput :=
  { query := some (JVal.obj [("sessionId", JVal.str "s1"), ("result", JVal.str "0")]) }

/-- Claim C2 witness: the spec's own example — `result: "0"` on a `created`
session — transitions the session directly to `failed` with no downstream
call. -/
theorem c2_witness :
    processCaymanNotification noopWorld c2exInp c2exSt =
      { store := (Sessions.update c2exSt "s1" { status := some SessionStatus.failed }).2,
        pc := Pc.done (mkRes RStatus.failed (some "s1") (some "Gateway reported failure")),
        calls := [] } ∧
    statusOf (processCaymanNotification noopWorld c2exInp c2exSt).store "s1" =
      some SessionStatus.failed := by
  exact c2_success_criterion.2 noopWorld c2exInp c2exSt "s1" c2exSess (by decide) rfl rfl
    (by decide)

/-- Claim C8 (confirmed).  `processCaymanNotification` is a total function of
its inputs (the embedding is a pure function, mirroring the source where every
fallible step — `JSON.parse`, the downstream awaits — is wrapped in
try/catch): when no session id is found in any source it reports
`missing_session` with the store untouched and no downstream call, and when
the resolved id is not in the store it reports `no_session` without creating a
session. -/
theorem c8_normalizer_safety :
    ∀ (w : World) (inp : NotifInput) (st : Store),
      (resolveSessionId w.jsonParse inp = none →
        processCaymanNotification w inp st =
          { store := st,
            pc := Pc.done (mkRes RStatus.missingSession none (some "sessionId not provided")),
            calls := [] }) ∧
      (∀ sid, resolveSessionId w.jsonParse inp = some sid → Sessions.get st sid = none →
        processCaymanNotification w inp st =
          { store := st,
            pc := Pc.done (mkRes RStatus.noSession (some sid) (some "Session not found")),
            calls := [] }) := by
  intro w inp st
  constructor
  · intro h
    simp [processCaymanNotification, stepAcc, stepOnce, phaseA, h]
  · intro sid h1 h2
    simp [processCaymanNotification, stepAcc, stepOnce, phaseA, h1, h2]

/-- Claim C8 witness: a notification with no session id anywhere yields
`missing_session` and leaves the store untouched; a notification whose session
id is absent from the store yields `no_session` on the unchanged store. -/
theorem c8_witness :
    processCaymanNotification noopWorld { body := some (JVal.obj [("foo", JVal.str "x")]) }
        c2exSt =
      { store := c2exSt,
        pc := Pc.done (mkRes RStatus.missingSession none (some "sessionId not provided")),
        calls := [] } ∧
    processCaymanNotification noopWorld
        { query := some (JVal.obj [("sessionId", JVal.str "zz")]) } c2exSt =
      { store := c2exSt,
        pc := Pc.done (mkRes RStatus.noSession (some "zz") (some "Session not found")),
        calls := [] } := by
  refine ⟨(c8_normalizer_safety noopWorld _ c2exSt).1 (by decide), ?_⟩
  exact (c8_normalizer_safety noopWorld _ c2exSt).2 "zz" (by decide) (by decide)

/-- Claim C4 (corrected).  The repository has two webhook endpoints.  The
legacy endpoint (`/webhooks/cayman`, `createLegacyCaymanWebhookHandler`)
behaves as claimed: any request without a raw body, or whose raw body fails
HMAC verification against the signature header (missing header, tampered
byte, or wrong secret), is answered with HTTP 400 before the idempotency set
is touched and before any downstream call.  The primary endpoint
(`/webhook/cayman`, `handleCaymanNotification`) — the one the claim cites —
performs no signature verification at all and answers HTTP 200 to every
request, so for it the claimed rejection is false (see the counterexample). -/
theorem c4_signature_handling :
    (∀ (lw : LegacyWorld) (secret : String) (seen : List String) (req : HttpRequest),
      (req.rawBody = none ∨
        (∃ raw, req.rawBody = some raw ∧ hmacVerify raw req.caymanSignature secret = false)) →
      ((legacyCaymanWebhookHandler lw secret seen req).1.httpStatus = 400 ∧
       (legacyCaymanWebhookHandler lw secret seen req).2.1 = seen ∧
       (legacyCaymanWebhookHandler lw secret seen req).2.2 = [])) ∧
    (∀ (w : World) (st : Store) (req : HttpRequest),
      (handleCaymanNotification w st req).1.httpStatus = 200) := by
  constructor
  · rintro lw secret seen req (hraw | ⟨raw, hraw, hver⟩)
    · simp [legacyCaymanWebhookHandler, hraw]
    · simp [legacyCaymanWebhookHandler, hraw, hver]
  · intro w st req
    rfl

/-- The world, session and unsigned request of claim C4's counterexample. -/
def c4World : World :=
  { jsonParse := fun _ => none
    getOrCreateClient := fun _ _ _ => Except.error "unused"
    checkoutShoppingCart := fun _ => Except.ok [("ReceiptId", JVal.num 7)] }

def c4Session : Session :=
  { id := "s1", siteKey := "k",
    lines := [{ productId := "42", name := "Svc", unitPrice := 10, qty := 1 }],
    total := 10, status := SessionStatus.created, clientId := some "c1" }

def c4Store : Store := [("s1", c4Session)]

def c4Req : HttpRequest :=
  { query := [("sessionId", JVal.str "s1"), ("result-code", JVal.str "00")] }

/-- Claim C4 counterexample: an unsigned request (no signature header at all)
carrying a successful notification for a `created` session is answered by the
webhook endpoint the claim cites with HTTP 200 — not 400 — and the downstream
sale-checkout call is made. -/
theorem c4_counterexample :
    c4Req.caymanSignature = none ∧
    (handleCaymanNotification c4World c4Store c4Req).1.httpStatus = 200 ∧
    ¬ (handleCaymanNotification c4World c4Store c4Req).1.httpStatus = 400 ∧
    (saleCalls (handleCaymanNotification c4World c4Store c4Req).2.2).length = 1 := by
  refine ⟨rfl, rfl, by decide, by decide⟩

/-- The legacy world of claim C4's witness. -/
def c4LegacyWorld : LegacyWorld :=
  { jsonParseBytes := fun _ => none
    issueStaffUserToken := Except.ok "tok"
    upsertClient := fun _ _ => Except.ok []
    checkoutShoppingCart := fun _ _ => Except.ok [] }

/-- Claim C4 witness: a concrete unsigned request to the legacy endpoint is
rejected with 400, with no downstream call and the idempotency set untouched. -/
theorem c4_witness :
    (legacyCaymanWebhookHandler c4LegacyWorld "sec" [] { rawBody := some [1, 2, 3] }).1.httpStatus
      = 400 ∧
    (legacyCaymanWebhookHandler c4LegacyWorld "sec" [] { rawBody := some [1, 2, 3] }).2.2 = [] := by
  have h := c4_signature_handling.1 c4LegacyWorld "sec" []
    { rawBody := some [1, 2, 3] } (Or.inr ⟨[1, 2, 3], rfl, rfl⟩)
  exact ⟨h.1, h.2.2⟩

/-! Composition lemmas assembling a complete sequential run from its segment
outcomes. -/

theorem run_eq_done (w : World) (inp : NotifInput) (st : Store) (st1 : Store)
    (r : CResult) (cs : List DownCall)
    (hA : phaseA w.jsonParse st inp = (st1, Pc.done r, cs)) :
    processCaymanNotification w inp st = ⟨st1, Pc.done r, cs⟩ := by
  simp [processCaymanNotification, stepAcc, stepOnce, hA]

theorem run_eq_checkout (w : World) (inp : NotifInput) (st : Store) (st1 st2 : Store)
    (k : CheckoutKont) (r : CResult) (cs cs2 : List DownCall)
    (hA : phaseA w.jsonParse st inp = (st1, Pc.resumeCheckout k, cs))
    (hC : phaseC w st1 k = (st2, Pc.done r, cs2)) :
    processCaymanNotification w inp st = ⟨st2, Pc.done r, cs ++ cs2⟩ := by
  simp [processCaymanNotification, stepAcc, stepOnce, hA, hC]

theorem run_eq_client_done (w : World) (inp : NotifInput) (st : Store) (st1 st2 : Store)
    (k : ClientKont) (r : CResult) (cs cs2 : List DownCall)
    (hA : phaseA w.jsonParse st inp = (st1, Pc.resumeClient k, cs))
    (hB : phaseB w st1 k = (st2, Pc.done r, cs2)) :
    processCaymanNotification w inp st = ⟨st2, Pc.done r, cs ++ cs2⟩ := by
  simp [processCaymanNotification, stepAcc, stepOnce, hA, hB]

theorem run_eq_client_checkout (w : World) (inp : NotifInput) (st : Store)
    (st1 st2 st3 : Store) (k : ClientKont) (k2 : CheckoutKont) (r : CResult)
    (cs cs2 cs3 : List DownCall)
    (hA : phaseA w.jsonParse st inp = (st1, Pc.resumeClient k, cs))
    (hB : phaseB w st1 k = (st2, Pc.resumeCheckout k2, cs2))
    (hC : phaseC w st2 k2 = (st3, Pc.done r, cs3)) :
    processCaymanNotification w inp st = ⟨st3, Pc.done r, cs ++ cs2 ++ cs3⟩ := by
  simp [processCaymanNotification, stepAcc, stepOnce, hA, hB, hC]

/-- The paid patch written by the successful checkout branch. -/
theorem paid_patch_status (payload : Rec) (locked : Session) :
    (SessionPatch.mk none none none none none (some SessionStatus.paid)
      (paidMetadata payload locked) none none).status = some SessionStatus.paid := rfl

/-- A run that reports `paid` leaves the session stored as `paid` under the
resolved session id, which the result also carries. -/
theorem run_paid_store (w : World) (inp : NotifInput) (st : Store)
    (hpaid : (resultOf (processCaymanNotification w inp st)).status = RStatus.paid) :
    ∃ sid, resolveSessionId w.jsonParse inp = some sid ∧
      (resultOf (processCaymanNotification w inp st)).sessionId = some sid ∧
      statusOf (processCaymanNotification w inp st).store sid = some SessionStatus.paid := by
  rcases phaseA_spec w.jsonParse st inp with ⟨hsid, hA⟩ | ⟨sid, hsid, hrest⟩
  · rw [run_eq_done w inp st _ _ _ hA] at hpaid
    simp [resultOf, mkRes] at hpaid
  · rcases hrest with ⟨hget, hA⟩ | ⟨s, hget, hinner⟩
    · rw [run_eq_done w inp st _ _ _ hA] at hpaid
      simp [resultOf, mkRes] at hpaid
    · rcases hinner with ⟨hst, hA⟩ | ⟨hst, hA⟩ | ⟨hp, hpr, hlast⟩
      · rw [run_eq_done w inp st _ _ _ hA] at hpaid
        simp [resultOf, mkRes] at hpaid
      · rw [run_eq_done w inp st _ _ _ hA] at hpaid
        simp [resultOf, mkRes] at hpaid
      · rcases hlast with ⟨hsu, hA⟩ | ⟨hsu, hpost⟩
        · rw [run_eq_done w inp st _ _ _ hA] at hpaid
          simp [resultOf, mkRes] at hpaid
        · rcases hpost with ⟨hcust, hcid, hA⟩ | ⟨cid, hcid, hA⟩ | ⟨hcid, cust, hcust, hA⟩
          · rw [run_eq_done w inp st _ _ _ hA] at hpaid
            simp [resultOf, mkRes] at hpaid
          · rcases phaseC_spec w _ _ with ⟨r, hrf, hrsid, hC⟩ | ⟨r, hrp, hrsid, hC⟩
            · rw [run_eq_checkout w inp st _ _ _ _ _ _ hA hC] at hpaid
              simp [resultOf] at hpaid
              rw [hpaid] at hrf
              cases hrf
            · have hrun := run_eq_checkout w inp st _ _ _ _ _ _ hA hC
              have hlock := get_setEntry_self st sid
                (Sessions.mergeSession s { status := some SessionStatus.processing })
              refine ⟨sid, hsid, ?_, ?_⟩
              · rw [hrun]
                simpa [resultOf] using hrsid
              · rw [hrun]
                simp only [statusOf]
                rw [get_update_self _ sid _ _ hlock]
                simp [Sessions.mergeSession]
          · rcases phaseB_spec w _ _ with ⟨r, hrf, hrsid, hB⟩ | ⟨v, hv, hB⟩
            · rw [run_eq_client_done w inp st _ _ _ _ _ _ hA hB] at hpaid
              simp [resultOf] at hpaid
              rw [hpaid] at hrf
              cases hrf
            · rcases phaseC_spec w _ _ with ⟨r, hrf, hrsid, hC⟩ | ⟨r, hrp, hrsid, hC⟩
              · rw [run_eq_client_checkout w inp st _ _ _ _ _ _ _ _ _ hA hB hC] at hpaid
                simp [resultOf] at hpaid
                rw [hpaid] at hrf
                cases hrf
              · have hrun := run_eq_client_checkout w inp st _ _ _ _ _ _ _ _ _ hA hB hC
                have hlock := get_setEntry_self st sid
                  (Sessions.mergeSession s { status := some SessionStatus.processing })
                have hlock2 := get_update_self _ sid
                  { clientId := some (jvToStr v) } _ hlock
                refine ⟨sid, hsid, ?_, ?_⟩
                · rw [hrun]
                  simpa [resultOf] using hrsid
                · rw [hrun]
                  simp only [statusOf]
                  rw [get_update_self _ sid _ _ hlock2]
                  simp [Sessions.mergeSession]

/-- Claim C3 (confirmed).  Redelivering a notification whose first delivery
ended with the session `paid` yields `already_paid` on the second delivery:
the second run makes no downstream call of any kind and returns the store
unchanged, so the paid session is untouched.  (The legacy endpoint's
event-id guard `once` additionally answers `deduped` there; in the cited
orchestrator the session's own `paid` status is the dedup check, which this
theorem verifies.) -/
theorem c3_idempotent_redelivery :
    ∀ (w : World) (inp : NotifInput) (st : Store),
      (resultOf (processCaymanNotification w inp st)).status = RStatus.paid →
      ∃ sid, resolveSessionId w.jsonParse inp = some sid ∧
        (resultOf (processCaymanNotification w inp st)).sessionId = some sid ∧
        processCaymanNotification w inp ((processCaymanNotification w inp st).store) =
          { store := (processCaymanNotification w inp st).store,
            pc := Pc.done (mkRes RStatus.alreadyPaid (some sid) none),
            calls := [] } := by
  intro w inp st hpaid
  obtain ⟨sid, h1, h2, h3⟩ := run_paid_store w inp st hpaid
  refine ⟨sid, h1, h2, ?_⟩
  set st2 := (processCaymanNotification w inp st).store with hst2
  rcases hg : Sessions.get st2 sid with _ | s'
  · simp [statusOf, hg] at h3
  · have hstat : s'.status = SessionStatus.paid := by simpa [statusOf, hg] using h3
    simp [processCaymanNotification, stepAcc, stepOnce, phaseA, h1, hg, hstat]

/-- The successful notification of claim C3's witness. -/
def c3exInp : NotifInput :=
  { query := some (JVal.obj [("sessionId", JVal.str "s1"), ("result-code", JVal.str "00")]) }

/-- Claim C3 witness: a concrete successful notification pays the session, and
its redelivery is answered `already_paid` with the store unchanged and no
second sale call. -/
theorem c3_witness :
    (resultOf (processCaymanNotification c4World c3exInp c4Store)).status = RStatus.paid ∧
    (∃ sid, resolveSessionId c4World.jsonParse c3exInp = some sid ∧
      (resultOf (processCaymanNotification c4World c3exInp c4Store)).sessionId = some sid ∧
      processCaymanNotification c4World c3exInp
          ((processCaymanNotification c4World c3exInp c4Store).store) =
        { store := (processCaymanNotification c4World c3exInp c4Store).store,
          pc := Pc.done (mkRes RStatus.alreadyPaid (some sid) none),
          calls := [] }) :=
  ⟨by decide, c3_idempotent_redelivery c4World c3exInp c4Store (by decide)⟩

/-- The reference derivation as the code performs it: sanitized transaction
id, else sanitized gateway order id, else sanitized session id. -/
def refCandidate (payload : Rec) (orderId : Option String) (sid : String) :
    Option String :=
  sanitizeReference (extractTransactionId payload) <|>
  sanitizeReference orderId <|>
  sanitizeReference (some sid)

theorem buildCartReq_paymentReference (sid : String) (locked : Session) (payload : Rec)
    (rc rt : Option String) (cv : JVal) :
    (buildCartReq sid locked payload rc rt cv).paymentReference =
      refCandidate payload locked.cayman.orderId sid ∧
    (buildCartReq sid locked payload rc rt cv).externalReferenceId =
      refCandidate payload locked.cayman.orderId sid := by
  constructor <;> rfl

/-- Every value `sanitizeReference` produces uses only `[A-Za-z0-9_-]` and is
at most 30 characters long. -/
theorem sanitizeReference_props (v : Option String) (r : String)
    (h : sanitizeReference v = some r) :
    r.data.all refChar = true ∧ r.length ≤ 30 := by
  rcases v with _ | s
  · cases h
  · unfold sanitizeReference at h
    by_cases h1 : jsTrim s = ""
    · simp [h1] at h
    · by_cases h2 : (jsTrim s).data.filter refChar = []
      · simp [h1, h2] at h
      · simp only [h1, h2, if_false, ite_false, Option.some.injEq] at h
        subst h
        constructor
        · rw [List.all_eq_true]
          intro x hx
          exact List.of_mem_filter (List.mem_of_mem_take hx)
        · have h30 : (((jsTrim s).data.filter refChar).take 30).length ≤ 30 := by
            rw [List.length_take]
            exact min_le_left _ _
          exact h30

theorem refCandidate_props (payload : Rec) (orderId : Option String) (sid : String)
    (r : String) (h : refCandidate payload orderId sid = some r) :
    r.data.all refChar = true ∧ r.length ≤ 30 := by
  unfold refCandidate at h
  rcases h1 : sanitizeReference (extractTransactionId payload) with _ | r1
  · rw [h1] at h
    rcases h2 : sanitizeReference orderId with _ | r2
    · rw [h2] at h
      simp only [Option.none_orElse] at h
      exact sanitizeReference_props _ _ h
    · rw [h2] at h
      simp only [Option.none_orElse, Option.some_orElse, Option.some.injEq] at h
      subst h
      exact sanitizeReference_props _ _ h2
  · rw [h1] at h
    simp only [Option.some_orElse, Option.some.injEq] at h
    subst h
    exact sanitizeReference_props _ _ h1

/-- The `cayman` metadata survives the lock update unchanged. -/
theorem mergeSession_lock_orderId (s : Session) :
    (Sessions.mergeSession s { status := some SessionStatus.processing }).cayman.orderId =
      s.cayman.orderId := by
  simp [Sessions.mergeSession]

/-- Claim C6 (corrected).  Every downstream sale call carries as its reference
the sanitized transaction id, else the sanitized gateway order id of the
stored session, else the sanitized session id; the sanitized reference is at
most 30 characters and uses only alphanumerics, hyphens — and underscores,
which the claim's "alphanumeric and hyphen only" omits (the source keeps
`[A-Za-z0-9_-]`; see the counterexample). -/
theorem c6_reference_sanitization :
    ∀ (w : World) (inp : NotifInput) (st : Store) (req : CartReq),
      DownCall.sale req ∈ (processCaymanNotification w inp st).calls →
      ∃ sid s, resolveSessionId w.jsonParse inp = some sid ∧
        Sessions.get st sid = some s ∧
        req.paymentReference = refCandidate (mergedPayload inp) s.cayman.orderId sid ∧
        req.externalReferenceId = req.paymentReference ∧
        (∀ r, req.paymentReference = some r → r.data.all refChar = true ∧ r.length ≤ 30) := by
  intro w inp st req hmem
  rcases phaseA_spec w.jsonParse st inp with ⟨hsid, hA⟩ | ⟨sid, hsid, hrest⟩
  · rw [run_eq_done w inp st _ _ _ hA] at hmem
    simp at hmem
  · rcases hrest with ⟨hget, hA⟩ | ⟨s, hget, hinner⟩
    · rw [run_eq_done w inp st _ _ _ hA] at hmem
      simp at hmem
    · rcases hinner with ⟨hst, hA⟩ | ⟨hst, hA⟩ | ⟨hp, hpr, hlast⟩
      · rw [run_eq_done w inp st _ _ _ hA] at hmem
        simp at hmem
      · rw [run_eq_done w inp st _ _ _ hA] at hmem
        simp at hmem
      · rcases hlast with ⟨hsu, hA⟩ | ⟨hsu, hpost⟩
        · rw [run_eq_done w inp st _ _ _ hA] at hmem
          simp at hmem
        · rcases hpost with ⟨hcust, hcid, hA⟩ | ⟨cid, hcid, hA⟩ | ⟨hcid, cust, hcust, hA⟩
          · rw [run_eq_done w inp st _ _ _ hA] at hmem
            simp at hmem
          · rcases phaseC_spec w _ _ with ⟨r, hrf, hrsid, hC⟩ | ⟨r, hrp, hrsid, hC⟩ <;>
            · rw [run_eq_checkout w inp st _ _ _ _ _ _ hA hC] at hmem
              simp at hmem
              subst hmem
              refine ⟨sid, s, hsid, hget, ?_, ?_, ?_⟩
              · rw [(buildCartReq_paymentReference _ _ _ _ _ _).1, mergeSession_lock_orderId]
              · rw [(buildCartReq_paymentReference _ _ _ _ _ _).1,
                  (buildCartReq_paymentReference _ _ _ _ _ _).2]
              · intro rr hrr
                rw [(buildCartReq_paymentReference _ _ _ _ _ _).1] at hrr
                exact refCandidate_props _ _ _ _ hrr
          · rcases phaseB_spec w _ _ with ⟨r, hrf, hrsid, hB⟩ | ⟨v, hv, hB⟩
            · rw [run_eq_client_done w inp st _ _ _ _ _ _ hA hB] at hmem
              simp at hmem
            · rcases phaseC_spec w _ _ with ⟨r, hrf, hrsid, hC⟩ | ⟨r, hrp, hrsid, hC⟩ <;>
              · rw [run_eq_client_checkout w inp st _ _ _ _ _ _ _ _ _ hA hB hC] at hmem
                simp at hmem
                subst hmem
                refine ⟨sid, s, hsid, hget, ?_, ?_, ?_⟩
                · rw [(buildCartReq_paymentReference _ _ _ _ _ _).1]
                  exact congrArg (fun o => refCandidate (mergedPayload inp) o sid)
                    (mergeSession_lock_orderId s)
                · rw [(buildCartReq_paymentReference _ _ _ _ _ _).1,
                    (buildCartReq_paymentReference _ _ _ _ _ _).2]
                · intro rr hrr
                  rw [(buildCartReq_paymentReference _ _ _ _ _ _).1] at hrr
                  exact refCandidate_props _ _ _ _ hrr

/-- The character set the claim asserts for references: alphanumerics and
hyphen only. -/
def claimRefChar (c : Char) : Bool := c.isAlpha || c.isDigit || c = '-'

/-- The notification of claim C6's counterexample, carrying an underscored
transaction id. -/
def c6Inp : NotifInput :=
  { query := some (JVal.obj [("sessionId", JVal.str "s1"), ("result-code", JVal.str "00"),
      ("transaction-id", JVal.str "TX_1")]) }

/-- Claim C6 counterexample: the sale posted for transaction id `TX_1` carries
the reference `TX_1` verbatim — `sanitizeReference` keeps underscores, so the
claimed "alphanumeric and hyphen characters only" is false. -/
theorem c6_counterexample :
    ((saleCalls (processCaymanNotification c4World c6Inp c4Store).calls).map
      (fun r => r.paymentReference)) = [some "TX_1"] ∧
    "TX_1".data.all claimRefChar = false :=
  ⟨by decide, by decide⟩

instance : Inhabited CartReq :=
  ⟨{ clientIdVal := JVal.jnull, items := [], total := 0, notes := "", inStore := false,
     paymentReference := none, externalReferenceId := none }⟩

/-- The single sale call emitted in claim C6's scenario. -/
def c6Req : CartReq :=
  (saleCalls (processCaymanNotification c4World c6Inp c4Store).calls).headI

/-- Claim C6 witness: in the concrete scenario the sale's reference is the
sanitized transaction id `TX_1`, within the amended character set and the
30-character bound. -/
theorem c6_witness :
    c6Req.paymentReference = some "TX_1" ∧ "TX_1".data.all refChar = true ∧
    ("TX_1" : String).length ≤ 30 := by
  obtain ⟨sid, s, h1, h2, h3, h4, h5⟩ :=
    c6_reference_sanitization c4World c6Inp c4Store c6Req (by
      rw [show (processCaymanNotification c4World c6Inp c4Store).calls =
        [DownCall.sale c6Req] from rfl]
      exact List.mem_singleton_self _)
  have h6 := h5 "TX_1" (by decide)
  exact ⟨by decide, h6.1, h6.2⟩

/-! Claim C1: the status transition relation actually realised by the
orchestrator. -/

/-- The status transitions a single delivery may perform, as observed between
its atomic segments: stutter, `created`→`processing`/`failed`,
`processing`→`paid`/`failed` — and, because the code never guards `failed`,
also `failed`→`processing` (re-entry) and `failed`→`failed`. -/
def statusStepRel (a b : Option SessionStatus) : Prop :=
  a = b ∨
  (a = some SessionStatus.created ∧ b = some SessionStatus.processing) ∨
  (a = some SessionStatus.created ∧ b = some SessionStatus.failed) ∨
  (a = some SessionStatus.processing ∧ b = some SessionStatus.paid) ∨
  (a = some SessionStatus.processing ∧ b = some SessionStatus.failed) ∨
  (a = some SessionStatus.failed ∧ b = some SessionStatus.processing) ∨
  (a = some SessionStatus.failed ∧ b = some SessionStatus.failed)

/-- The session's stored status as observed before the run and after each of
the run's three atomic segments. -/
def statusTrace (w : World) (inp : NotifInput) (st : Store) :
    List (Option SessionStatus) :=
  match resolveSessionId w.jsonParse inp with
  | none => []
  | some sid =>
    let c0 : ProcCfg := { store := st, pc := Pc.start inp, calls := [] }
    let c1 := stepAcc w c0
    let c2 := stepAcc w c1
    let c3 := stepAcc w c2
    [statusOf st sid, statusOf c1.store sid, statusOf c2.store sid, statusOf c3.store sid]

theorem stepAcc_done (w : World) (st : Store) (r : CResult) (cs : List DownCall) :
    stepAcc w ⟨st, Pc.done r, cs⟩ = ⟨st, Pc.done r, cs⟩ := by
  simp [stepAcc, stepOnce]

theorem chain4 {α : Type} (R : α → α → Prop) (a b c d : α)
    (h1 : R a b) (h2 : R b c) (h3 : R c d) : List.Chain' R [a, b, c, d] := by
  simp only [List.chain'_cons, List.chain'_singleton, and_true]
  exact ⟨h1, h2, h3⟩

theorem statusOf_setEntry_self (st : Store) (sid : String) (s : Session) :
    statusOf (Sessions.setEntry st sid s) sid = some s.status := by
  simp [statusOf, get_setEntry_self]

theorem statusOf_update_found (st : Store) (sid : String) (p : SessionPatch) (e : Session)
    (h : Sessions.get st sid = some e) :
    statusOf (Sessions.update st sid p).2 sid =
      some (Sessions.mergeSession e p).status := by
  simp [statusOf, get_update_self st sid p e h]

/-- A status that is neither `paid` nor `processing` is `created` or `failed`. -/
theorem status_created_or_failed (s : SessionStatus)
    (hp : s ≠ SessionStatus.paid) (hpr : s ≠ SessionStatus.processing) :
    s = SessionStatus.created ∨ s = SessionStatus.failed := by
  cases s
  · exact Or.inl rfl
  · exact absurd rfl hpr
  · exact absurd rfl hp
  · exact Or.inr rfl

/-- Entering `failed` from a non-terminal status is an allowed step of the
amended relation. -/
theorem statusStepRel_to_failed (s : SessionStatus)
    (hp : s ≠ SessionStatus.paid) (hpr : s ≠ SessionStatus.processing) :
    statusStepRel (some s) (some SessionStatus.failed) := by
  rcases status_created_or_failed s hp hpr with h | h <;> subst h
  · exact Or.inr (Or.inr (Or.inl ⟨rfl, rfl⟩))
  · exact Or.inr (Or.inr (Or.inr (Or.inr (Or.inr (Or.inr ⟨rfl, rfl⟩)))))

/-- Entering `processing` (taking the lock) from a non-terminal status is an
allowed step of the amended relation. -/
theorem statusStepRel_to_processing (s : SessionStatus)
    (hp : s ≠ SessionStatus.paid) (hpr : s ≠ SessionStatus.processing) :
    statusStepRel (some s) (some SessionStatus.processing) := by
  rcases status_created_or_failed s hp hpr with h | h <;> subst h
  · exact Or.inr (Or.inl ⟨rfl, rfl⟩)
  · exact Or.inr (Or.inr (Or.inr (Or.inr (Or.inr (Or.inl ⟨rfl, rfl⟩)))))

theorem statusStepRel_refl (a : Option SessionStatus) : statusStepRel a a := Or.inl rfl

theorem statusStepRel_proc_paid :
    statusStepRel (some SessionStatus.processing) (some SessionStatus.paid) :=
  Or.inr (Or.inr (Or.inr (Or.inl ⟨rfl, rfl⟩)))

theorem statusStepRel_proc_failed :
    statusStepRel (some SessionStatus.processing) (some SessionStatus.failed) :=
  Or.inr (Or.inr (Or.inr (Or.inr (Or.inl ⟨rfl, rfl⟩))))

/-- Mid-run invariant of a single delivery: the process is either finished, or
suspended at an `await` with the lock held (the session stored under its kont's
id is `processing`). -/
def TraceInv (sid : String) (c : ProcCfg) : Prop :=
  (∃ r, c.pc = Pc.done r) ∨
  (∃ k, c.pc = Pc.resumeClient k ∧ k.sid = sid ∧
    statusOf c.store sid = some SessionStatus.processing) ∨
  (∃ k, c.pc = Pc.resumeCheckout k ∧ k.sid = sid ∧
    statusOf c.store sid = some SessionStatus.processing)

/-- A session whose observed status is `processing` exists in the store. -/
theorem statusOf_processing_get (st : Store) (sid : String)
    (h : statusOf st sid = some SessionStatus.processing) :
    ∃ e, Sessions.get st sid = some e ∧ e.status = SessionStatus.processing := by
  rcases hg : Sessions.get st sid with _ | e
  · simp [statusOf, hg] at h
  · exact ⟨e, rfl, by simpa [statusOf, hg] using h⟩

/-- The first atomic segment makes one allowed status step and establishes the
mid-run invariant. -/
theorem phaseA_trace (w : World) (inp : NotifInput) (st : Store) (sid : String)
    (hsid : resolveSessionId w.jsonParse inp = some sid) :
    statusStepRel (statusOf st sid)
      (statusOf (stepAcc w ⟨st, Pc.start inp, []⟩).store sid) ∧
    TraceInv sid (stepAcc w ⟨st, Pc.start inp, []⟩) := by
  rcases phaseA_spec w.jsonParse st inp with ⟨hsid2, hA⟩ | ⟨sid2, hsid2, hrest⟩
  · rw [hsid] at hsid2
    cases hsid2
  · rw [hsid] at hsid2
    injection hsid2 with hsid2
    subst hsid2
    rcases hrest with ⟨hget, hA⟩ | ⟨s, hget, hinner⟩
    · rw [show stepAcc w ⟨st, Pc.start inp, []⟩ = ⟨st, Pc.done (mkRes RStatus.noSession
        (some sid) (some "Session not found")), []⟩ from by simp [stepAcc, stepOnce, hA]]
      exact ⟨statusStepRel_refl _, Or.inl ⟨_, rfl⟩⟩
    · rcases hinner with ⟨hst, hA⟩ | ⟨hst, hA⟩ | ⟨hp, hpr, hlast⟩
      · rw [show stepAcc w ⟨st, Pc.start inp, []⟩ = ⟨st, Pc.done (mkRes RStatus.alreadyPaid
          (some sid) none), []⟩ from by simp [stepAcc, stepOnce, hA]]
        exact ⟨statusStepRel_refl _, Or.inl ⟨_, rfl⟩⟩
      · rw [show stepAcc w ⟨st, Pc.start inp, []⟩ = ⟨st, Pc.done (mkRes RStatus.processing
          (some sid) none), []⟩ from by simp [stepAcc, stepOnce, hA]]
        exact ⟨statusStepRel_refl _, Or.inl ⟨_, rfl⟩⟩
      · have hs0 : statusOf st sid = some s.status := by simp [statusOf, hget]
        rcases hlast with ⟨hsu, hA⟩ | ⟨hsu, hpost⟩
        · constructor
          · rw [show (stepAcc w ⟨st, Pc.start inp, []⟩).store =
              (Sessions.update st sid { status := some SessionStatus.failed }).2 from by
                simp [stepAcc, stepOnce, hA]]
            rw [statusOf_update_found st sid _ s hget, hs0]
            have : (Sessions.mergeSession s
                { status := some SessionStatus.failed }).status = SessionStatus.failed :=
              mergeSession_status_some _ _ _ rfl
            rw [this]
            exact statusStepRel_to_failed s.status (fun hh => hp (by simpa using hh))
              (fun hh => hpr (by simpa using hh))
          · exact Or.inl ⟨mkRes RStatus.failed (some sid) (some "Gateway reported failure"),
              by simp [stepAcc, stepOnce, hA]⟩
        · have hlockstatus :
            statusOf (Sessions.setEntry st sid (Sessions.mergeSession s
              { status := some SessionStatus.processing })) sid =
              some SessionStatus.processing := by
            rw [statusOf_setEntry_self]
            rw [mergeSession_status_some s _ SessionStatus.processing rfl]
          rcases hpost with ⟨hcust, hcid, hA⟩ | ⟨cid, hcid, hA⟩ | ⟨hcid, cust, hcust, hA⟩
          · constructor
            · rw [show (stepAcc w ⟨st, Pc.start inp, []⟩).store =
                (Sessions.update (Sessions.setEntry st sid (Sessions.mergeSession s
                  { status := some SessionStatus.processing })) sid
                  { status := some SessionStatus.failed }).2 from by
                    simp [stepAcc, stepOnce, hA]]
              obtain ⟨e, hge, _⟩ := statusOf_processing_get _ _ hlockstatus
              rw [statusOf_update_found _ sid _ e hge, hs0,
                mergeSession_status_some e _ SessionStatus.failed rfl]
              exact statusStepRel_to_failed s.status (fun hh => hp (by simpa using hh))
                (fun hh => hpr (by simpa using hh))
            · exact Or.inl ⟨mkRes RStatus.failed (some sid) (some "Customer data missing"),
                by simp [stepAcc, stepOnce, hA]⟩
          · constructor
            · rw [show (stepAcc w ⟨st, Pc.start inp, []⟩).store =
                Sessions.setEntry st sid (Sessions.mergeSession s
                  { status := some SessionStatus.processing }) from by
                    simp [stepAcc, stepOnce, hA]]
              rw [hlockstatus, hs0]
              exact statusStepRel_to_processing s.status (fun hh => hp (by simpa using hh))
                (fun hh => hpr (by simpa using hh))
            · have hpc : (stepAcc w ⟨st, Pc.start inp, []⟩).pc = Pc.resumeCheckout
                ⟨sid, Sessions.mergeSession s { status := some SessionStatus.processing },
                  mergedPayload inp,
                  buildCartReq sid
                    (Sessions.mergeSession s { status := some SessionStatus.processing })
                    (mergedPayload inp) (determineSuccess (mergedPayload inp)).resultCode
                    (determineSuccess (mergedPayload inp)).resultText (JVal.str cid)⟩ := by
                simp [stepAcc, stepOnce, hA]
              refine Or.inr (Or.inr ⟨_, hpc, rfl, ?_⟩)
              rw [show (stepAcc w ⟨st, Pc.start inp, []⟩).store =
                Sessions.setEntry st sid (Sessions.mergeSession s
                  { status := some SessionStatus.processing }) from by
                    simp [stepAcc, stepOnce, hA]]
              exact hlockstatus
          · constructor
            · rw [show (stepAcc w ⟨st, Pc.start inp, []⟩).store =
                Sessions.setEntry st sid (Sessions.mergeSession s
                  { status := some SessionStatus.processing }) from by
                    simp [stepAcc, stepOnce, hA]]
              rw [hlockstatus, hs0]
              exact statusStepRel_to_processing s.status (fun hh => hp (by simpa using hh))
                (fun hh => hpr (by simpa using hh))
            · have hpc : (stepAcc w ⟨st, Pc.start inp, []⟩).pc = Pc.resumeClient
                ⟨sid, Sessions.mergeSession s { status := some SessionStatus.processing },
                  mergedPayload inp, (determineSuccess (mergedPayload inp)).resultCode,
                  (determineSuccess (mergedPayload inp)).resultText, cust.email,
                  cust.firstName, cust.lastName⟩ := by
                simp [stepAcc, stepOnce, hA]
              refine Or.inr (Or.inl ⟨_, hpc, rfl, ?_⟩)
              rw [show (stepAcc w ⟨st, Pc.start inp, []⟩).store =
                Sessions.setEntry st sid (Sessions.mergeSession s
                  { status := some SessionStatus.processing }) from by
                    simp [stepAcc, stepOnce, hA]]
              exact hlockstatus

/-- Each later atomic segment makes one allowed status step and preserves the
mid-run invariant. -/
theorem step_trace (w : World) (sid : String) (c : ProcCfg) (hinv : TraceInv sid c) :
    statusStepRel (statusOf c.store sid) (statusOf (stepAcc w c).store sid) ∧
    TraceInv sid (stepAcc w c) := by
  rcases hinv with ⟨r, hpc⟩ | ⟨k, hpc, hksid, hstat⟩ | ⟨k, hpc, hksid, hstat⟩
  · have h : stepAcc w c = ⟨c.store, Pc.done r, c.calls⟩ := by
      simp [stepAcc, stepOnce, hpc]
    rw [h]
    exact ⟨statusStepRel_refl _, Or.inl ⟨r, rfl⟩⟩
  · subst hksid
    obtain ⟨e, hge, hestat⟩ := statusOf_processing_get c.store k.sid hstat
    rcases phaseB_spec w c.store k with ⟨r, hrf, hrsid, hB⟩ | ⟨v, hv, hB⟩
    · constructor
      · rw [show (stepAcc w c).store =
          (Sessions.update c.store k.sid { status := some SessionStatus.failed }).2 from by
            simp [stepAcc, stepOnce, hpc, hB]]
        rw [statusOf_update_found _ _ _ e hge, hstat,
          mergeSession_status_some e _ SessionStatus.failed rfl]
        exact statusStepRel_proc_failed
      · exact Or.inl ⟨r, by simp [stepAcc, stepOnce, hpc, hB]⟩
    · constructor
      · rw [show (stepAcc w c).store =
          (Sessions.update c.store k.sid { clientId := some (jvToStr v) }).2 from by
            simp [stepAcc, stepOnce, hpc, hB]]
        rw [statusOf_update_found _ _ _ e hge, hstat, mergeSession_status_none e _ rfl,
          hestat]
        exact statusStepRel_refl _
      · refine Or.inr (Or.inr ⟨⟨k.sid, k.locked, k.payload,
          buildCartReq k.sid k.locked k.payload (determineSuccess k.payload).resultCode
            (determineSuccess k.payload).resultText v⟩,
          by simp [stepAcc, stepOnce, hpc, hB], rfl, ?_⟩)
        rw [show (stepAcc w c).store =
          (Sessions.update c.store k.sid { clientId := some (jvToStr v) }).2 from by
            simp [stepAcc, stepOnce, hpc, hB]]
        rw [statusOf_update_found _ _ _ e hge, mergeSession_status_none e _ rfl, hestat]
  · subst hksid
    obtain ⟨e, hge, hestat⟩ := statusOf_processing_get c.store k.sid hstat
    rcases phaseC_spec w c.store k with ⟨r, hrf, hrsid, hC⟩ | ⟨r, hrp, hrsid, hC⟩
    · constructor
      · rw [show (stepAcc w c).store =
          (Sessions.update c.store k.sid { status := some SessionStatus.failed }).2 from by
            simp [stepAcc, stepOnce, hpc, hC]]
        rw [statusOf_update_found _ _ _ e hge, hstat,
          mergeSession_status_some e _ SessionStatus.failed rfl]
        exact statusStepRel_proc_failed
      · exact Or.inl ⟨r, by simp [stepAcc, stepOnce, hpc, hC]⟩
    · constructor
      · rw [show (stepAcc w c).store =
          (Sessions.update c.store k.sid (SessionPatch.mk none none none none none
            (some SessionStatus.paid) (paidMetadata k.payload k.locked) none none)).2 from by
              simp [stepAcc, stepOnce, hpc, hC]]
        rw [statusOf_update_found _ _ _ e hge, hstat,
          mergeSession_status_some e _ SessionStatus.paid rfl]
        exact statusStepRel_proc_paid
      · exact Or.inl ⟨r, by simp [stepAcc, stepOnce, hpc, hC]⟩

/-- Claim C1 (corrected).  Status moves only along the amended relation:
stutters, `created`→`processing`, `created`→`failed`, `processing`→`paid`,
`processing`→`failed` — plus `failed`→`processing` and `failed`→`failed`,
because the orchestrator never guards a `failed` session: a later successful
delivery re-runs fulfillment from `failed` and can reach `paid` (see the
counterexample), so `failed` is NOT terminal.  `paid` is terminal (a delivery
for a paid session returns `already_paid` with the store unchanged and no
downstream call), and a `processing` session is never re-entered (the
delivery returns `processing` with the store unchanged and no call). -/
theorem c1_state_machine :
    (∀ (w : World) (inp : NotifInput) (st : Store),
      List.Chain' statusStepRel (statusTrace w inp st)) ∧
    (∀ (w : World) (inp : NotifInput) (st : Store) (sid : String) (s : Session),
      resolveSessionId w.jsonParse inp = some sid →
      Sessions.get st sid = some s → s.status = SessionStatus.paid →
      processCaymanNotification w inp st =
        { store := st, pc := Pc.done (mkRes RStatus.alreadyPaid (some sid) none),
          calls := [] }) ∧
    (∀ (w : World) (inp : NotifInput) (st : Store) (sid : String) (s : Session),
      resolveSessionId w.jsonParse inp = some sid →
      Sessions.get st sid = some s → s.status = SessionStatus.processing →
      processCaymanNotification w inp st =
        { store := st, pc := Pc.done (mkRes RStatus.processing (some sid) none),
          calls := [] }) := by
  refine ⟨?_, ?_, ?_⟩
  · intro w inp st
    rcases hsid : resolveSessionId w.jsonParse inp with _ | sid
    · simp [statusTrace, hsid]
    · have h1 := phaseA_trace w inp st sid hsid
      have h2 := step_trace w sid _ h1.2
      have h3 := step_trace w sid _ h2.2
      have ht : statusTrace w inp st = [statusOf st sid,
          statusOf (stepAcc w ⟨st, Pc.start inp, []⟩).store sid,
          statusOf (stepAcc w (stepAcc w ⟨st, Pc.start inp, []⟩)).store sid,
          statusOf (stepAcc w (stepAcc w (stepAcc w ⟨st, Pc.start inp, []⟩))).store sid] := by
        simp [statusTrace, hsid]
      rw [ht]
      exact chain4 _ _ _ _ _ h1.1 h2.1 h3.1
  · intro w inp st sid s h1 h2 h3
    simp [processCaymanNotification, stepAcc, stepOnce, phaseA, h1, h2, h3]
  · intro w inp st sid s h1 h2 h3
    simp [processCaymanNotification, stepAcc, stepOnce, phaseA, h1, h2, h3]

/-- The failed session and successful redelivery of claim C1's
counterexample. -/
def c1Inp : NotifInput :=
  { query := some (JVal.obj [("sessionId", JVal.str "s1"), ("result-code", JVal.str "00")]) }

def c1Session : Session :=
  { id := "s1", siteKey := "k",
    lines := [{ productId := "42", name := "Svc", unitPrice := 10, qty := 1 }],
    total := 10, status := SessionStatus.failed, clientId := some "c1" }

def c1Store : Store := [("s1", c1Session)]

/-- Claim C1 counterexample: a session already `failed` is re-locked by a
later successful notification, fulfillment re-runs (one sale call), and the
session reaches `paid` after `failed` — refuting both "failed is terminal /
no automatic retry" and "no session ever reaches paid after failed". -/
theorem c1_counterexample :
    statusOf c1Store "s1" = some SessionStatus.failed ∧
    (resultOf (processCaymanNotification c4World c1Inp c1Store)).status = RStatus.paid ∧
    statusOf (processCaymanNotification c4World c1Inp c1Store).store "s1" =
      some SessionStatus.paid ∧
    (saleCalls (processCaymanNotification c4World c1Inp c1Store).calls).length = 1 :=
  ⟨by decide, by decide, by decide, by decide⟩

/-- The paid session of claim C1's witness. -/
def c1PaidSession : Session :=
  { id := "s1", siteKey := "k", lines := [], total := 0, status := SessionStatus.paid }

/-- Claim C1 witness: a delivery for a `paid` session is an idempotent no-op
reporting `already_paid`. -/
theorem c1_witness :
    processCaymanNotification noopWorld c1Inp [("s1", c1PaidSession)] =
      { store := [("s1", c1PaidSession)],
        pc := Pc.done (mkRes RStatus.alreadyPaid (some "s1") none), calls := [] } :=
  c1_state_machine.2.1 noopWorld c1Inp [("s1", c1PaidSession)] "s1" c1PaidSession
    (by decide) rfl rfl

/-! Claim C5: interleaved execution of two concurrent deliveries. -/

theorem mergeSession_clientId_none (e : Session) (p : SessionPatch)
    (h : p.clientId = none) : (Sessions.mergeSession e p).clientId = e.clientId := by
  simp [Sessions.mergeSession, h]

theorem mergeSession_customer_none (e : Session) (p : SessionPatch)
    (h : p.customer = none) : (Sessions.mergeSession e p).customer = e.customer := by
  simp [Sessions.mergeSession, h]

/-- A delivery that finds the session `processing` aborts without touching
anything (the lock is respected). -/
theorem phaseA_processing (j : String → Option JVal) (st : Store) (inp : NotifInput)
    (sid : String) (s : Session) (hres : resolveSessionId j inp = some sid)
    (hget : Sessions.get st sid = some s) (hstat : s.status = SessionStatus.processing) :
    phaseA j st inp = (st, Pc.done (mkRes RStatus.processing (some sid) none), []) := by
  simp [phaseA, hres, hget, hstat]

/-- A delivery that finds the session `paid` aborts idempotently. -/
theorem phaseA_paid (j : String → Option JVal) (st : Store) (inp : NotifInput)
    (sid : String) (s : Session) (hres : resolveSessionId j inp = some sid)
    (hget : Sessions.get st sid = some s) (hstat : s.status = SessionStatus.paid) :
    phaseA j st inp = (st, Pc.done (mkRes RStatus.alreadyPaid (some sid) none), []) := by
  simp [phaseA, hres, hget, hstat]

/-- The client-resolution segment when the oracle resolves a truthy id. -/
theorem phaseB_ok (w : World) (st : Store) (k : ClientKont) (c : Rec) (v : JVal)
    (hres : w.getOrCreateClient k.email k.firstName k.lastName = Except.ok (some c))
    (hid : (jgetNN c "Id" <|> jgetNN c "ID") = some v) (hfal : jvFalsy v = false) :
    phaseB w st k = ((Sessions.update st k.sid { clientId := some (jvToStr v) }).2,
      Pc.resumeCheckout
        ⟨k.sid, k.locked, k.payload,
          buildCartReq k.sid k.locked k.payload (determineSuccess k.payload).resultCode
            (determineSuccess k.payload).resultText v⟩,
      [DownCall.sale (buildCartReq k.sid k.locked k.payload
        (determineSuccess k.payload).resultCode (determineSuccess k.payload).resultText v)]) := by
  simp [phaseB, hres, hid, hfal, issueCheckout]

/-- The checkout segment when the downstream sale succeeds. -/
theorem phaseC_ok (w : World) (st : Store) (k : CheckoutKont) (rcpt : Rec)
    (hok : w.checkoutShoppingCart k.req = Except.ok rcpt) :
    phaseC w st k = ((Sessions.update st k.sid (SessionPatch.mk none none none none none
      (some SessionStatus.paid) (paidMetadata k.payload k.locked) none none)).2,
      Pc.done (paidResult k.sid rcpt), []) := by
  simp [phaseC, hok, paidResult, mkRes]

/-- The customer-resolution hypothesis of the concurrency claim: the session
either already carries a downstream client id, or has customer data that the
downstream client oracle resolves to a truthy id. -/
def clientAvailable (w : World) (s : Session) : Prop :=
  (∃ cid, s.clientId = some cid) ∨
  (s.clientId = none ∧ ∃ cust, s.customer = some cust ∧
    ∃ c v, w.getOrCreateClient cust.email cust.firstName cust.lastName =
        Except.ok (some c) ∧
      (jgetNN c "Id" <|> jgetNN c "ID") = some v ∧ jvFalsy v = false)

/-- The state of the delivery currently holding (or about to take) the lock:
not yet started on the untouched store, suspended before the client call with
a resolvable customer, suspended before the sale call with exactly one sale
call issued, or finished with the session paid and exactly one sale call
issued. -/
def WState (w : World) (sid : String) (inp : NotifInput) (st0 : Store)
    (store : Store) (pc : Pc) (calls : List DownCall) : Prop :=
  (store = st0 ∧ pc = Pc.start inp ∧ calls = []) ∨
  (∃ k s', pc = Pc.resumeClient k ∧ k.sid = sid ∧
    (∃ c v, w.getOrCreateClient k.email k.firstName k.lastName = Except.ok (some c) ∧
      (jgetNN c "Id" <|> jgetNN c "ID") = some v ∧ jvFalsy v = false) ∧
    Sessions.get store sid = some s' ∧ s'.status = SessionStatus.processing ∧
    saleCalls calls = []) ∨
  (∃ k s', pc = Pc.resumeCheckout k ∧ k.sid = sid ∧
    Sessions.get store sid = some s' ∧ s'.status = SessionStatus.processing ∧
    (saleCalls calls).length = 1) ∨
  (∃ r s', pc = Pc.done r ∧ Sessions.get store sid = some s' ∧
    s'.status = SessionStatus.paid ∧ (saleCalls calls).length = 1)

/-- The state of the other delivery: not yet started, or finished without
ever issuing a call. -/
def LState (inp : NotifInput) (pc : Pc) (calls : List DownCall) : Prop :=
  (pc = Pc.start inp ∧ calls = []) ∨ (∃ r, pc = Pc.done r ∧ calls = [])

/-- The two-process invariant: one process is the (current or prospective)
lock holder, the other has either not started or bowed out without calls. -/
def Inv2 (w : World) (sid : String) (st0 : Store) (inp1 inp2 : NotifInput)
    (c : Cfg2) : Prop :=
  (WState w sid inp1 st0 c.store c.pc1 c.calls1 ∧ LState inp2 c.pc2 c.calls2) ∨
  (WState w sid inp2 st0 c.store c.pc2 c.calls2 ∧ LState inp1 c.pc1 c.calls1)

/-- Stepping the lock-holding delivery preserves its `WState`: from `start` it
takes the lock (issuing at most the client call or the single sale call), from
the client suspension it issues the sale call, from the sale suspension it
marks the session paid, and a finished delivery stays finished. -/
theorem advance_winner (w : World) (sid : String) (st0 : Store) (s : Session)
    (inp : NotifInput)
    (hget0 : Sessions.get st0 sid = some s) (hcr : s.status = SessionStatus.created)
    (hclient : clientAvailable w s)
    (hck : ∀ req, ∃ rcpt, w.checkoutShoppingCart req = Except.ok rcpt)
    (hres : resolveSessionId w.jsonParse inp = some sid)
    (hsucc : (determineSuccess (mergedPayload inp)).isSuccess = true)
    (store : Store) (pc : Pc) (calls : List DownCall)
    (hw : WState w sid inp st0 store pc calls) :
    WState w sid inp st0 (stepOnce w store pc).1 (stepOnce w store pc).2.1
      (calls ++ (stepOnce w store pc).2.2) := by
  rcases hw with ⟨hstore, hpc, hcalls⟩ |
    ⟨k, s', hpc, hksid, ⟨c, v, hor, hid, hfal⟩, hget, hstat, hsc⟩ |
    ⟨k, s', hpc, hksid, hget, hstat, hsc⟩ | ⟨r, s', hpc, hget, hstat, hsc⟩
  · subst hstore
    subst hpc
    subst hcalls
    have hstep : stepOnce w store (Pc.start inp) = phaseA w.jsonParse store inp := rfl
    rw [hstep]
    rcases phaseA_spec w.jsonParse store inp with ⟨hsid2, _⟩ | ⟨sid2, hsid2, hrest⟩
    · rw [hres] at hsid2
      cases hsid2
    · rw [hres] at hsid2
      injection hsid2 with hs2
      subst hs2
      rcases hrest with ⟨hgetN, _⟩ | ⟨s2, hget2, hinner⟩
      · rw [hget0] at hgetN
        cases hgetN
      · rw [hget0] at hget2
        injection hget2 with h2
        subst h2
        rcases hinner with ⟨hst, _⟩ | ⟨hst, _⟩ | ⟨hp, hpr, hlast⟩
        · rw [hcr] at hst
          cases hst
        · rw [hcr] at hst
          cases hst
        · rcases hlast with ⟨hsuF, _⟩ | ⟨_, hpost⟩
          · rw [hsucc] at hsuF
            cases hsuF
          · rcases hpost with ⟨hcust, hcid, hA⟩ | ⟨cid, hcid, hA⟩ | ⟨hcid, cust, hcust, hA⟩
            · exfalso
              rcases hclient with ⟨cid, hc⟩ | ⟨hnone, cust, hc, _⟩
              · rw [mergeSession_clientId_none _ _ rfl, hc] at hcid
                cases hcid
              · rw [mergeSession_customer_none _ _ rfl, hc] at hcust
                cases hcust
            · rw [hA]
              refine Or.inr (Or.inr (Or.inl ⟨_,
                Sessions.mergeSession s { status := some SessionStatus.processing },
                rfl, rfl, get_setEntry_self store sid _,
                mergeSession_status_some _ _ _ rfl, by simp [saleCalls]⟩))
            · rw [hA]
              have hscust : s.customer = some cust := by
                rw [mergeSession_customer_none _ _ rfl] at hcust
                exact hcust
              rcases hclient with ⟨cid, hc⟩ | ⟨hnone, cust', hc', c, v, hor, hid, hfal⟩
              · exfalso
                rw [mergeSession_clientId_none _ _ rfl, hc] at hcid
                cases hcid
              · rw [hscust] at hc'
                injection hc' with hcc
                subst hcc
                refine Or.inr (Or.inl ⟨_,
                  Sessions.mergeSession s { status := some SessionStatus.processing },
                  rfl, rfl, ⟨c, v, hor, hid, hfal⟩, get_setEntry_self store sid _,
                  mergeSession_status_some _ _ _ rfl, by simp [saleCalls]⟩)
  · subst hpc
    subst hksid
    have hstep : stepOnce w store (Pc.resumeClient k) = phaseB w store k := rfl
    rw [hstep, phaseB_ok w store k c v hor hid hfal]
    refine Or.inr (Or.inr (Or.inl ⟨_, Sessions.mergeSession s'
      { clientId := some (jvToStr v) }, rfl, rfl, get_update_self _ _ _ _ hget, ?_, ?_⟩))
    · rw [mergeSession_status_none _ _ rfl]
      exact hstat
    · rw [saleCalls_append, hsc]
      simp [saleCalls]
  · subst hpc
    subst hksid
    obtain ⟨rcpt, hok⟩ := hck k.req
    have hstep : stepOnce w store (Pc.resumeCheckout k) = phaseC w store k := rfl
    rw [hstep, phaseC_ok w store k rcpt hok]
    refine Or.inr (Or.inr (Or.inr ⟨paidResult k.sid rcpt, Sessions.mergeSession s'
      (SessionPatch.mk none none none none none (some SessionStatus.paid)
        (paidMetadata k.payload k.locked) none none),
      rfl, get_update_self _ _ _ _ hget, mergeSession_status_some _ _ _ rfl, ?_⟩))
    rw [saleCalls_append]
    simpa [saleCalls] using hsc
  · subst hpc
    have hstep : stepOnce w store (Pc.done r) = (store, Pc.done r, []) := rfl
    rw [hstep]
    exact Or.inr (Or.inr (Or.inr ⟨r, s', rfl, hget, hstat, by simpa using hsc⟩))

theorem step2_false (w : World) (c : Cfg2) :
    step2 w false c = Cfg2.mk (stepOnce w c.store c.pc1).1
      (stepOnce w c.store c.pc1).2.1 (c.calls1 ++ (stepOnce w c.store c.pc1).2.2)
      c.pc2 c.calls2 := by
  simp [step2]

theorem step2_true (w : World) (c : Cfg2) :
    step2 w true c = Cfg2.mk (stepOnce w c.store c.pc2).1
      c.pc1 c.calls1 (stepOnce w c.store c.pc2).2.1
      (c.calls2 ++ (stepOnce w c.store c.pc2).2.2) := by
  simp [step2]

/-- Stepping a delivery that has not started while the other holds the lock:
it aborts against the `processing` (or already `paid`) session, leaving the
store untouched and issuing no call. -/
theorem loser_aborts (w : World) (sid : String) (store : Store) (s' : Session)
    (inp : NotifInput) (hres : resolveSessionId w.jsonParse inp = some sid)
    (hget : Sessions.get store sid = some s')
    (hstat : s'.status = SessionStatus.processing ∨ s'.status = SessionStatus.paid) :
    ∃ r, stepOnce w store (Pc.start inp) = (store, Pc.done r, []) := by
  rcases hstat with h | h
  · exact ⟨_, phaseA_processing w.jsonParse store inp sid s' hres hget h⟩
  · exact ⟨_, phaseA_paid w.jsonParse store inp sid s' hres hget h⟩

/-- One interleaving step preserves the two-process invariant. -/
theorem inv2_step (w : World) (sid : String) (st0 : Store) (s : Session)
    (inp1 inp2 : NotifInput)
    (hget0 : Sessions.get st0 sid = some s) (hcr : s.status = SessionStatus.created)
    (hclient : clientAvailable w s)
    (hck : ∀ req, ∃ rcpt, w.checkoutShoppingCart req = Except.ok rcpt)
    (hres1 : resolveSessionId w.jsonParse inp1 = some sid)
    (hsucc1 : (determineSuccess (mergedPayload inp1)).isSuccess = true)
    (hres2 : resolveSessionId w.jsonParse inp2 = some sid)
    (hsucc2 : (determineSuccess (mergedPayload inp2)).isSuccess = true)
    (who : Bool) (c : Cfg2) (hinv : Inv2 w sid st0 inp1 inp2 c) :
    Inv2 w sid st0 inp1 inp2 (step2 w who c) := by
  have hWof : ∀ (inp : NotifInput) (store : Store) (pc : Pc) (calls : List DownCall),
      resolveSessionId w.jsonParse inp = some sid →
      (determineSuccess (mergedPayload inp)).isSuccess = true →
      WState w sid inp st0 store pc calls →
      WState w sid inp st0 (stepOnce w store pc).1 (stepOnce w store pc).2.1
        (calls ++ (stepOnce w store pc).2.2) :=
    fun inp store pc calls hres hsucc hw =>
      advance_winner w sid st0 s inp hget0 hcr hclient hck hres hsucc store pc calls hw
  have habort2 : ∀ (inpL : NotifInput) (s' : Session),
      resolveSessionId w.jsonParse inpL = some sid →
      Sessions.get c.store sid = some s' →
      (s'.status = SessionStatus.processing ∨ s'.status = SessionStatus.paid) →
      ∃ r, stepOnce w c.store (Pc.start inpL) = (c.store, Pc.done r, []) :=
    fun inpL s' hres hget hstat => loser_aborts w sid c.store s' inpL hres hget hstat
  rcases hinv with ⟨hw, hl⟩ | ⟨hw, hl⟩
  · cases who
    · rw [step2_false]
      exact Or.inl ⟨hWof inp1 c.store c.pc1 c.calls1 hres1 hsucc1 hw, hl⟩
    · rw [step2_true]
      rcases hl with ⟨hpc, hcalls⟩ | ⟨r, hpc, hcalls⟩
      · rw [hpc]
        rcases hw with ⟨hstore, hpcw, hcallsw⟩ |
          ⟨k, s', hpcw, hksid, horacle, hget, hstat, hsc⟩ |
          ⟨k, s', hpcw, hksid, hget, hstat, hsc⟩ | ⟨r, s', hpcw, hget, hstat, hsc⟩
        · refine Or.inr ⟨?_, Or.inl ⟨hpcw, hcallsw⟩⟩
          have h2 := hWof inp2 c.store (Pc.start inp2) c.calls2 hres2 hsucc2
            (Or.inl ⟨hstore, rfl, hcalls⟩)
          exact h2
        · obtain ⟨r2, habort⟩ := habort2 inp2 s' hres2 hget (Or.inl hstat)
          rw [habort]
          exact Or.inl ⟨Or.inr (Or.inl ⟨k, s', hpcw, hksid, horacle, hget, hstat, hsc⟩),
            Or.inr ⟨r2, rfl, by simp [hcalls]⟩⟩
        · obtain ⟨r2, habort⟩ := habort2 inp2 s' hres2 hget (Or.inl hstat)
          rw [habort]
          exact Or.inl ⟨Or.inr (Or.inr (Or.inl ⟨k, s', hpcw, hksid, hget, hstat, hsc⟩)),
            Or.inr ⟨r2, rfl, by simp [hcalls]⟩⟩
        · obtain ⟨r2, habort⟩ := habort2 inp2 s' hres2 hget (Or.inr hstat)
          rw [habort]
          exact Or.inl ⟨Or.inr (Or.inr (Or.inr ⟨r, s', hpcw, hget, hstat, hsc⟩)),
            Or.inr ⟨r2, rfl, by simp [hcalls]⟩⟩
      · rw [hpc]
        have hnoop : stepOnce w c.store (Pc.done r) = (c.store, Pc.done r, []) := rfl
        rw [hnoop]
        exact Or.inl ⟨hw, Or.inr ⟨r, rfl, by simp [hcalls]⟩⟩
  · cases who
    · rw [step2_false]
      rcases hl with ⟨hpc, hcalls⟩ | ⟨r, hpc, hcalls⟩
      · rw [hpc]
        rcases hw with ⟨hstore, hpcw, hcallsw⟩ |
          ⟨k, s', hpcw, hksid, horacle, hget, hstat, hsc⟩ |
          ⟨k, s', hpcw, hksid, hget, hstat, hsc⟩ | ⟨r, s', hpcw, hget, hstat, hsc⟩
        · refine Or.inl ⟨?_, Or.inl ⟨hpcw, hcallsw⟩⟩
          have h1 := hWof inp1 c.store (Pc.start inp1) c.calls1 hres1 hsucc1
            (Or.inl ⟨hstore, rfl, hcalls⟩)
          exact h1
        · obtain ⟨r1, habort⟩ := habort2 inp1 s' hres1 hget (Or.inl hstat)
          rw [habort]
          exact Or.inr ⟨Or.inr (Or.inl ⟨k, s', hpcw, hksid, horacle, hget, hstat, hsc⟩),
            Or.inr ⟨r1, rfl, by simp [hcalls]⟩⟩
        · obtain ⟨r1, habort⟩ := habort2 inp1 s' hres1 hget (Or.inl hstat)
          rw [habort]
          exact Or.inr ⟨Or.inr (Or.inr (Or.inl ⟨k, s', hpcw, hksid, hget, hstat, hsc⟩)),
            Or.inr ⟨r1, rfl, by simp [hcalls]⟩⟩
        · obtain ⟨r1, habort⟩ := habort2 inp1 s' hres1 hget (Or.inr hstat)
          rw [habort]
          exact Or.inr ⟨Or.inr (Or.inr (Or.inr ⟨r, s', hpcw, hget, hstat, hsc⟩)),
            Or.inr ⟨r1, rfl, by simp [hcalls]⟩⟩
      · rw [hpc]
        have hnoop : stepOnce w c.store (Pc.done r) = (c.store, Pc.done r, []) := rfl
        rw [hnoop]
        exact Or.inr ⟨hw, Or.inr ⟨r, rfl, by simp [hcalls]⟩⟩
    · rw [step2_true]
      exact Or.inr ⟨hWof inp2 c.store c.pc2 c.calls2 hres2 hsucc2 hw, hl⟩

/-- The invariant holds along any schedule. -/
theorem inv2_exec (w : World) (sid : String) (st0 : Store) (s : Session)
    (inp1 inp2 : NotifInput)
    (hget0 : Sessions.get st0 sid = some s) (hcr : s.status = SessionStatus.created)
    (hclient : clientAvailable w s)
    (hck : ∀ req, ∃ rcpt, w.checkoutShoppingCart req = Except.ok rcpt)
    (hres1 : resolveSessionId w.jsonParse inp1 = some sid)
    (hsucc1 : (determineSuccess (mergedPayload inp1)).isSuccess = true)
    (hres2 : resolveSessionId w.jsonParse inp2 = some sid)
    (hsucc2 : (determineSuccess (mergedPayload inp2)).isSuccess = true) :
    ∀ (sched : List Bool) (c : Cfg2), Inv2 w sid st0 inp1 inp2 c →
      Inv2 w sid st0 inp1 inp2 (exec2 w sched c) := by
  intro sched
  induction sched with
  | nil => intro c h; exact h
  | cons who rest ih =>
    intro c h
    exact ih _ (inv2_step w sid st0 s inp1 inp2 hget0 hcr hclient hck hres1 hsucc1
      hres2 hsucc2 who c h)

/-- Claim C5 (confirmed).  Firing two successful notifications for the same
`created` session concurrently — under every interleaving of their atomic
event-loop segments — produces exactly one downstream sale-checkout call,
provided customer resolution succeeds (or a client id is already stored) and
the downstream checkout succeeds.  The `created`→`processing` transition,
executed inside the first synchronous segment together with its guard, is the
compare-and-set that admits at most one in-flight fulfillment: whichever
delivery runs its first segment second observes `processing` (or `paid`) and
aborts without any downstream call. -/
theorem c5_concurrent_safety :
    ∀ (w : World) (st0 : Store) (sid : String) (s : Session) (inp1 inp2 : NotifInput)
      (sched : List Bool),
      Sessions.get st0 sid = some s →
      s.status = SessionStatus.created →
      clientAvailable w s →
      (∀ req, ∃ rcpt, w.checkoutShoppingCart req = Except.ok rcpt) →
      resolveSessionId w.jsonParse inp1 = some sid →
      (determineSuccess (mergedPayload inp1)).isSuccess = true →
      resolveSessionId w.jsonParse inp2 = some sid →
      (determineSuccess (mergedPayload inp2)).isSuccess = true →
      isDone (exec2 w sched (initCfg2 st0 inp1 inp2)).pc1 = true →
      isDone (exec2 w sched (initCfg2 st0 inp1 inp2)).pc2 = true →
      totalSaleCalls (exec2 w sched (initCfg2 st0 inp1 inp2)) = 1 := by
  intro w st0 sid s inp1 inp2 sched hget0 hcr hclient hck hres1 hsucc1 hres2 hsucc2
    hdone1 hdone2
  have hinv0 : Inv2 w sid st0 inp1 inp2 (initCfg2 st0 inp1 inp2) :=
    Or.inl ⟨Or.inl ⟨rfl, rfl, rfl⟩, Or.inl ⟨rfl, rfl⟩⟩
  have hinv := inv2_exec w sid st0 s inp1 inp2 hget0 hcr hclient hck hres1 hsucc1
    hres2 hsucc2 sched _ hinv0
  set c := exec2 w sched (initCfg2 st0 inp1 inp2) with hc
  rcases hinv with ⟨hw, hl⟩ | ⟨hw, hl⟩
  · have h1 : (saleCalls c.calls1).length = 1 := by
      rcases hw with ⟨_, hpcw, _⟩ | ⟨k, s', hpcw, _⟩ | ⟨k, s', hpcw, _⟩ | ⟨r, s', hpcw, _, _, hsc⟩
      · rw [hpcw] at hdone1; simp [isDone] at hdone1
      · rw [hpcw] at hdone1; simp [isDone] at hdone1
      · rw [hpcw] at hdone1; simp [isDone] at hdone1
      · exact hsc
    have h2 : (saleCalls c.calls2).length = 0 := by
      rcases hl with ⟨hpcl, _⟩ | ⟨r, hpcl, hcallsl⟩
      · rw [hpcl] at hdone2; simp [isDone] at hdone2
      · rw [hcallsl]; rfl
    rw [totalSaleCalls, h1, h2]
  · have h1 : (saleCalls c.calls2).length = 1 := by
      rcases hw with ⟨_, hpcw, _⟩ | ⟨k, s', hpcw, _⟩ | ⟨k, s', hpcw, _⟩ | ⟨r, s', hpcw, _, _, hsc⟩
      · rw [hpcw] at hdone2; simp [isDone] at hdone2
      · rw [hpcw] at hdone2; simp [isDone] at hdone2
      · rw [hpcw] at hdone2; simp [isDone] at hdone2
      · exact hsc
    have h2 : (saleCalls c.calls1).length = 0 := by
      rcases hl with ⟨hpcl, _⟩ | ⟨r, hpcl, hcallsl⟩
      · rw [hpcl] at hdone1; simp [isDone] at hdone1
      · rw [hcallsl]; rfl
    rw [totalSaleCalls, h1, h2]

/-- Claim C5 witness: a concrete interleaving of two identical successful
notifications — the second delivery's first segment runs between the first
delivery's two segments — completes with exactly one sale call. -/
theorem c5_witness :
    totalSaleCalls (exec2 c4World [false, true, false, true]
      (initCfg2 c4Store c1Inp c1Inp)) = 1 :=
  c5_concurrent_safety c4World c4Store "s1" c4Session c1Inp c1Inp
    [false, true, false, true] rfl rfl (Or.inl ⟨"c1", rfl⟩)
    (fun _ => ⟨[("ReceiptId", JVal.num 7)], rfl⟩)
    (by decide) (by decide) (by decide) (by decide) (by decide) (by decide)
